import Mathlib

/-!
Verification of the geometry-conversion and text-diff core of the Devimuth
utility collection.

The embedding follows `src/utils/gis/geometry.ts` (WKT ↔ GeoJSON conversion)
and `src/utils/dev/diffUtils.ts` (diff computation and rendering).  Strings
are modelled as `List Char`; JavaScript numbers as exact decimals (`Dec`,
with `none : Option Dec` for `NaN`), which is the idealisation matching the
specification's "up to floating-point tolerance"; regular expressions are
modelled by deterministic matchers whose greedy/lazy behaviour is committed
(justified where used: the adjacent character classes are disjoint, so
backtracking can never succeed where maximal munch fails).
-/

namespace Devimuth

/-- Whitespace per ECMAScript `\s` (WhiteSpace plus LineTerminator): the set
used by `String.prototype.trim`, the `\s` regex class and `parseFloat`'s
leading-whitespace skip. -/
def isJsWs (c : Char) : Bool :=
  c = ' ' || c = '\t' || c = '\n' || c = '\r' || c = '\x0b' || c = '\x0c' ||
  c = '\u00a0' || c = '\u1680' || (0x2000 ≤ c.toNat && c.toNat ≤ 0x200a) ||
  c = '\u2028' || c = '\u2029' || c = '\u202f' || c = '\u205f' ||
  c = '\u3000' || c = '\ufeff'

/-- ECMAScript line terminators; `.` in a regex without the `s` flag matches
any character except these. -/
def isLineTerm (c : Char) : Bool :=
  c = '\n' || c = '\r' || c = '\u2028' || c = '\u2029'

/-- `String.prototype.trim`. -/
def jsTrim (s : List Char) : List Char :=
  ((s.dropWhile isJsWs).reverse.dropWhile isJsWs).reverse

/-- Exact decimal number `m / 10 ^ e`: the idealisation of a JavaScript
float used throughout (the spec compares numbers only up to floating-point
tolerance). -/
structure Dec where
  m : Int
  e : Nat
deriving DecidableEq, Repr

/-- Strip factors of ten so that distinct spellings of one decimal value
coincide: `⟨525200, 4⟩` and `⟨5252, 2⟩` both denote `52.52` and normalise to
the latter. -/
def decNorm : Int → Nat → Dec
  | m, 0 => ⟨m, 0⟩
  | m, e + 1 => if m % 10 = 0 then decNorm (m / 10) e else ⟨m, e + 1⟩

/-- A JavaScript number: a finite decimal, or `none` for `NaN` (`parseFloat`
on malformed text, or destructuring an absent array element). -/
abbrev JsNum := Option Dec

/-- Base-10 value of a digit string. -/
def digitsVal (ds : List Char) : Nat :=
  ds.foldl (fun a c => 10 * a + (c.toNat - 48)) 0

/-- The regex character class `[-\d.]` of the POINT extraction. -/
def isNumTokChar (c : Char) : Bool := c.isDigit || c = '-' || c = '.'

/-- ECMAScript `parseFloat`, restricted to plain decimal notation (optional
sign, digits, optional fraction); exponent notation and `Infinity` cannot
occur in the numeric tokens this converter produces or consumes and are
omitted.  `none` is `NaN`. -/
def parseFloatD (s : List Char) : JsNum :=
  let s1 := s.dropWhile isJsWs
  let sgn : Bool × List Char :=
    match s1 with
    | '-' :: r => (true, r)
    | '+' :: r => (false, r)
    | _ => (false, s1)
  let ip := sgn.2.takeWhile Char.isDigit
  let rest := sgn.2.dropWhile Char.isDigit
  match rest with
  | '.' :: r2 =>
    let fp := r2.takeWhile Char.isDigit
    if ip = [] ∧ fp = [] then none
    else some (decNorm ((if sgn.1 then -1 else 1) * (digitsVal (ip ++ fp) : Int)) fp.length)
  | _ =>
    if ip = [] then none
    else some (decNorm ((if sgn.1 then -1 else 1) * (digitsVal ip : Int)) 0)

/-- Decimal digits of a natural number, most significant first; fuel-indexed
so the kernel evaluates it, with `natDigits` supplying ample fuel. -/
def natDigitsAux : Nat → Nat → List Char
  | 0, _ => []
  | fuel + 1, n =>
    if n < 10 then [Nat.digitChar n]
    else natDigitsAux fuel (n / 10) ++ [Nat.digitChar (n % 10)]

/-- Decimal digits of a natural number. -/
def natDigits (n : Nat) : List Char := natDigitsAux (n + 1) n

/-- Left-pad a digit string with zeros to width `k`. -/
def padZeros (k : Nat) (ds : List Char) : List Char :=
  List.replicate (k - ds.length) '0' ++ ds

/-- JavaScript `Number#toString` on a finite decimal: optional sign, integer
digits, and — when a fractional part is present — a point and the fraction
digits (shortest form, as JavaScript prints). -/
def printD (d : Dec) : List Char :=
  let n : Nat := d.m.natAbs
  let ip : Nat := n / 10 ^ d.e
  let fp : Nat := n % 10 ^ d.e
  (if d.m < 0 then ['-'] else []) ++ natDigits ip ++
    (if fp = 0 then [] else '.' :: padZeros d.e (natDigits fp))

/-- Template interpolation of a JavaScript number; `NaN` prints as `"NaN"`. -/
def printJsNum : JsNum → List Char
  | none => ['N', 'a', 'N']
  | some d => printD d

/-- JavaScript `String.prototype.split` with a one-character separator. -/
def splitOnChar (sep : Char) : List Char → List (List Char)
  | [] => [[]]
  | c :: cs =>
    if c = sep then [] :: splitOnChar sep cs
    else
      match splitOnChar sep cs with
      | [] => [[c]]
      | h :: t => (c :: h) :: t

/-- Worker for `split(/\s+/)`: pieces between maximal whitespace runs, with
the JavaScript edge behaviour (leading or trailing runs produce an empty
piece).  `inSep` records whether the previous character was whitespace. -/
def splitWsAux : Bool → List Char → List Char → List (List Char)
  | _, acc, [] => [acc.reverse]
  | inSep, acc, c :: cs =>
    if isJsWs c then
      if inSep then splitWsAux true acc cs
      else acc.reverse :: splitWsAux true [] cs
    else splitWsAux false (c :: acc) cs

/-- JavaScript `split(/\s+/)`. -/
def splitWs (s : List Char) : List (List Char) := splitWsAux false [] s

/-- JavaScript `split` with a regex separator: scan left to right and at each
position try the separator matcher `sepAt` (returning the text after the
match); pieces are the stretches between matches.  Fuel-indexed; callers pass
the text length plus one, which suffices because every separator used here
consumes at least one character. -/
def splitSepAux (sepAt : List Char → Option (List Char)) :
    Nat → List Char → List Char → List (List Char)
  | 0, acc, s => [acc.reverse ++ s]
  | _ + 1, acc, [] => [acc.reverse]
  | fuel + 1, acc, c :: cs =>
    match sepAt (c :: cs) with
    | some rest => acc.reverse :: splitSepAux sepAt fuel [] rest
    | none => splitSepAux sepAt fuel (c :: acc) cs

/-- JavaScript `split` with a regex separator. -/
def splitSep (sepAt : List Char → Option (List Char)) (s : List Char) : List (List Char) :=
  splitSepAux sepAt (s.length + 1) [] s

/-- `\s*` (greedy; committed because every context that follows it expects a
non-whitespace character). -/
def munchWs (s : List Char) : List Char := s.dropWhile isJsWs

/-- Separator `/\),\s*\(/` splitting polygon rings and MULTILINESTRING
members. -/
def ringSepAt : List Char → Option (List Char)
  | c1 :: c2 :: r =>
    if c1 = ')' ∧ c2 = ',' then
      match munchWs r with
      | '(' :: r2 => some r2
      | _ => none
    else none
  | _ => none

/-- Separator `/\)\),\s*\(\(/` splitting the polygons of a MULTIPOLYGON. -/
def polySepAt : List Char → Option (List Char)
  | ')' :: ')' :: ',' :: r =>
    match munchWs r with
    | '(' :: '(' :: r2 => some r2
    | _ => none
  | _ => none

/-- Separator `/\),\s*\(|,\s*(?=\d)/` of the MULTIPOINT branch; the second
alternative ends in a lookahead, so the digit is not consumed. -/
def mpSepAt (s : List Char) : Option (List Char) :=
  match ringSepAt s with
  | some r => some r
  | none =>
    match s with
    | ',' :: r =>
      match munchWs r with
      | d :: r2 => if d.isDigit then some (d :: r2) else none
      | [] => none
    | _ => none

/-- `replace(/[()]/g, '')`. -/
def removeParens (s : List Char) : List Char :=
  s.filter (fun c => !(c = '(' || c = ')'))

/-- `replace(/^\(|\)$/g, '')`: strip one leading `(` and one trailing `)`. -/
def stripOuter (s : List Char) : List Char :=
  let s1 :=
    match s with
    | '(' :: r => r
    | _ => s
  match s1.reverse with
  | ')' :: r => r.reverse
  | _ => s1

/-- Case-insensitive literal keyword match (the regex `i` flag): consume
`kw`, return the rest of the text. -/
def kwMatchCI : List Char → List Char → Option (List Char)
  | [], s => some s
  | _ :: _, [] => none
  | k :: ks, c :: cs => if c.toLower = k.toLower then kwMatchCI ks cs else none

/-- `\s*\(`: greedy whitespace then an opening parenthesis (committed since
`(` is not whitespace). -/
def wsParen (s : List Char) : Option (List Char) :=
  match munchWs s with
  | '(' :: r => some r
  | _ => none

/-- The anchored test `/^KW\s*\(/i` guarding each geometry branch. -/
def prefixMatch (kw : List Char) (s : List Char) : Bool :=
  ((kwMatchCI kw s).bind wsParen).isSome

/-- Leftmost-match search: an unanchored regex tries every start position,
earliest first. -/
def searchPos {α : Type} (m : List Char → Option α) : List Char → Option α
  | [] => m []
  | c :: cs =>
    match m (c :: cs) with
    | some v => some v
    | none => searchPos m cs

/-- Lazy group `(.*?)\)`: the shortest stretch of non-line-terminator
characters up to a closing parenthesis, returned with the rest. -/
def lazyToParen : List Char → Option (List Char × List Char)
  | [] => none
  | c :: r =>
    if c = ')' then some ([], r)
    else if isLineTerm c then none
    else (lazyToParen r).map (fun g => (c :: g.1, g.2))

/-- Matcher for `/KW\s*\((.*?)\)/i` at one position, yielding group 1. -/
def bodyAt (kw : List Char) (s : List Char) : Option (List Char) := do
  let r1 ← kwMatchCI kw s
  let r2 ← wsParen r1
  let g ← lazyToParen r2
  pure g.1

/-- Unanchored `s.match(/KW\s*\((.*?)\)/i)`, group 1. -/
def extractBody (kw : List Char) (s : List Char) : Option (List Char) :=
  searchPos (bodyAt kw) s

/-- `[-\d.]+`: maximal nonempty run (committed: what follows in the POINT
pattern — whitespace or `)` — is outside the class). -/
def numTok (s : List Char) : Option (List Char × List Char) :=
  let t := s.takeWhile isNumTokChar
  if t = [] then none else some (t, s.drop t.length)

/-- `\s+`: a nonempty maximal whitespace run. -/
def ws1 : List Char → Option (List Char)
  | c :: cs => if isJsWs c then some (munchWs cs) else none
  | [] => none

def kwPOINT : List Char := ['P', 'O', 'I', 'N', 'T']
def kwLINESTRING : List Char := ['L', 'I', 'N', 'E', 'S', 'T', 'R', 'I', 'N', 'G']
def kwPOLYGON : List Char := ['P', 'O', 'L', 'Y', 'G', 'O', 'N']
def kwMULTIPOINT : List Char := ['M', 'U', 'L', 'T', 'I', 'P', 'O', 'I', 'N', 'T']
def kwMULTILINESTRING : List Char :=
  ['M', 'U', 'L', 'T', 'I', 'L', 'I', 'N', 'E', 'S', 'T', 'R', 'I', 'N', 'G']
def kwMULTIPOLYGON : List Char :=
  ['M', 'U', 'L', 'T', 'I', 'P', 'O', 'L', 'Y', 'G', 'O', 'N']
def kwGEOMETRYCOLLECTION : List Char :=
  ['G', 'E', 'O', 'M', 'E', 'T', 'R', 'Y', 'C', 'O', 'L', 'L', 'E', 'C', 'T', 'I', 'O', 'N']

/-- Matcher for `/POINT\s*\(\s*([-\d.]+)\s+([-\d.]+)\s*\)/i` at one
position, yielding the two captured groups. -/
def pointAt (s : List Char) : Option (List Char × List Char) := do
  let r1 ← kwMatchCI kwPOINT s
  let r2 ← wsParen r1
  let r3 := munchWs r2
  let (g1, r4) ← numTok r3
  let r5 ← ws1 r4
  let (g2, r6) ← numTok r5
  match munchWs r6 with
  | ')' :: _ => pure (g1, g2)
  | _ => none

/-- Unanchored match of the POINT coordinate pattern. -/
def extractPoint (s : List Char) : Option (List Char × List Char) :=
  searchPos pointAt s

/-- The GeoJSON geometry values this converter produces and consumes.
Coordinate pairs are in GeoJSON array order (component 1 is array index 0). -/
inductive Geometry where
  | point : JsNum × JsNum → Geometry
  | lineString : List (JsNum × JsNum) → Geometry
  | polygon : List (List (JsNum × JsNum)) → Geometry
  | multiPoint : List (JsNum × JsNum) → Geometry
  | multiLineString : List (List (JsNum × JsNum)) → Geometry
  | multiPolygon : List (List (List (JsNum × JsNum))) → Geometry
  | geometryCollection : List Geometry → Geometry

/-- JavaScript destructuring `const [x, y] = parts` followed by
`parseFloat`: an absent element is `undefined` and parses to `NaN`. -/
def parseFloatAt (parts : List (List Char)) (i : Nat) : JsNum :=
  match parts.get? i with
  | some t => parseFloatD t
  | none => none

/-- The per-token lambda of the LineString/Polygon/MultiLineString branches:
`const [x, y] = p.trim().split(/\s+/); return [parseFloat(y), parseFloat(x)]`
— the two parsed numbers are emitted swapped. -/
def parseCoordPair (p : List Char) : JsNum × JsNum :=
  let parts := splitWs (jsTrim p)
  (parseFloatAt parts 1, parseFloatAt parts 0)

/-- `body.split(',').map(parseCoordPair-lambda)`. -/
def lineBody (body : List Char) : List (JsNum × JsNum) :=
  (splitOnChar ',' body).map parseCoordPair

/-- Ring handling shared by the Polygon and MultiLineString branches:
`ring.replace(/[()]/g, '')` then the comma/token pipeline. -/
def ringClean (ring : List Char) : List (JsNum × JsNum) :=
  lineBody (removeParens ring)

/-- The MULTIPOINT per-token lambda: strip parentheses, trim, split on
whitespace, destructure and swap. -/
def mpPoint (p : List Char) : JsNum × JsNum :=
  let parts := splitWs (jsTrim (removeParens p))
  (parseFloatAt parts 1, parseFloatAt parts 0)

/-- The Point branch: on a prefix match, extract the two groups and return
`[parseFloat(coords[2]), parseFloat(coords[1])]`. -/
def tryPoint (t : List Char) : Option Geometry :=
  if prefixMatch kwPOINT t then
    (extractPoint t).map (fun g => .point (parseFloatD g.2, parseFloatD g.1))
  else none

/-- The LineString branch. -/
def tryLineString (t : List Char) : Option Geometry :=
  if prefixMatch kwLINESTRING t then
    (extractBody kwLINESTRING t).map (fun body => .lineString (lineBody body))
  else none

/-- The Polygon branch: split the extracted body on `/\),\s*\(/` and clean
each ring. -/
def tryPolygon (t : List Char) : Option Geometry :=
  if prefixMatch kwPOLYGON t then
    (extractBody kwPOLYGON t).map
      (fun body => .polygon ((splitSep ringSepAt body).map ringClean))
  else none

/-- The MultiPoint branch. -/
def tryMultiPoint (t : List Char) : Option Geometry :=
  if prefixMatch kwMULTIPOINT t then
    (extractBody kwMULTIPOINT t).map
      (fun body => .multiPoint ((splitSep mpSepAt body).map mpPoint))
  else none

/-- The MultiLineString branch. -/
def tryMultiLineString (t : List Char) : Option Geometry :=
  if prefixMatch kwMULTILINESTRING t then
    (extractBody kwMULTILINESTRING t).map
      (fun body => .multiLineString ((splitSep ringSepAt body).map ringClean))
  else none

/-- The MultiPolygon branch: split on `/\)\),\s*\(\(/`, strip each polygon's
outer parentheses, split rings. -/
def tryMultiPolygon (t : List Char) : Option Geometry :=
  if prefixMatch kwMULTIPOLYGON t then
    (extractBody kwMULTIPOLYGON t).map
      (fun body => .multiPolygon ((splitSep polySepAt body).map
        (fun poly => (splitSep ringSepAt (stripOuter poly)).map ringClean)))
  else none

/-- One step of the GeometryCollection right-to-left walk: bump the
parenthesis depth, prepend the character to `current`, and at depth zero with
non-blank text recursively parse it, keeping it only on success (`unshift`
preserves textual order since the walk moves right to left). -/
def gcStep (recur : List Char → Except (List Char) Geometry) (c : Char) :
    Int × List Char × List Geometry → Int × List Char × List Geometry
  | (depth, current, geoms) =>
    let depth := if c = ')' then depth + 1 else depth
    let depth := if c = '(' then depth - 1 else depth
    let current := c :: current
    if depth = 0 ∧ jsTrim current ≠ [] then
      match recur (jsTrim current) with
      | .ok g => (depth, [], g :: geoms)
      | .error _ => (depth, [], geoms)
    else (depth, current, geoms)

/-- The GeometryCollection member walk over the extracted inner text. -/
def gcWalk (recur : List Char → Except (List Char) Geometry) (inner : List Char) :
    List Geometry :=
  (inner.reverse.foldl (fun st c => gcStep recur c st)
    ((0 : Int), ([] : List Char), ([] : List Geometry))).2.2

/-- The GeometryCollection branch: per-member errors are swallowed, so a
successful extraction always yields a collection. -/
def tryGC (recur : List Char → Except (List Char) Geometry) (t : List Char) :
    Option Geometry :=
  if prefixMatch kwGEOMETRYCOLLECTION t then
    (extractBody kwGEOMETRYCOLLECTION t).map
      (fun inner => .geometryCollection (gcWalk recur inner))
  else none

/-- The error thrown on branch fall-through (`Unsupported WKT geometry type
or invalid format`) as wrapped by the surrounding catch
(`Invalid WKT format: ...`). -/
def invalidWktMsg : List Char :=
  "Invalid WKT format: Unsupported WKT geometry type or invalid format".data

/-- `wktToGeoJSONExtended`, fuel-indexed: the only recursion is the
GeometryCollection branch on strict substrings of the input, so the
wrapper's fuel `length + 1` cannot run out. -/
def wktParse : Nat → List Char → Except (List Char) Geometry
  | 0, _ => .error invalidWktMsg
  | fuel + 1, wkt =>
    let t := jsTrim wkt
    match tryPoint t <|> tryLineString t <|> tryPolygon t <|> tryMultiPoint t <|>
        tryMultiLineString t <|> tryMultiPolygon t <|> tryGC (wktParse fuel) t with
    | some g => .ok g
    | none => .error invalidWktMsg

/-- `wktToGeoJSONExtended` of `src/utils/gis/geometry.ts`. -/
def wktToGeoJSONExtended (wkt : List Char) : Except (List Char) Geometry :=
  wktParse (wkt.length + 1) wkt

/-- One coordinate token `` `${lon} ${lat}` ``. -/
def pairTok (p : JsNum × JsNum) : List Char :=
  printJsNum p.1 ++ ' ' :: printJsNum p.2

/-- `.join(', ')`. -/
def joinComma : List (List Char) → List Char
  | [] => []
  | [p] => p
  | p :: p2 :: ps => p ++ ',' :: ' ' :: joinComma (p2 :: ps)

/-- Serialised coordinate list of a LineString / ring / MultiPoint. -/
def joinPairs (cs : List (JsNum × JsNum)) : List Char :=
  joinComma (cs.map pairTok)

/-- A parenthesised ring `` `(${coords})` ``. -/
def ringTok (ring : List (JsNum × JsNum)) : List Char :=
  '(' :: joinPairs ring ++ [')']

mutual

/-- `geoJSONToWKTExtended` of `src/utils/gis/geometry.ts`.  With the closed
`Geometry` type every case is supported, so no error path remains. -/
def geoJSONToWKTExtended : Geometry → List Char
  | .point p => "POINT(".data ++ printJsNum p.1 ++ ' ' :: printJsNum p.2 ++ [')']
  | .lineString cs => "LINESTRING(".data ++ joinPairs cs ++ [')']
  | .polygon rs => "POLYGON(".data ++ joinComma (rs.map ringTok) ++ [')']
  | .multiPoint cs => "MULTIPOINT(".data ++ joinPairs cs ++ [')']
  | .multiLineString ls => "MULTILINESTRING(".data ++ joinComma (ls.map ringTok) ++ [')']
  | .multiPolygon ps =>
    "MULTIPOLYGON(".data ++
      joinComma (ps.map (fun poly => '(' :: joinComma (poly.map ringTok) ++ [')'])) ++ [')']
  | .geometryCollection gs => "GEOMETRYCOLLECTION(".data ++ geoWktJoin gs ++ [')']

/-- `geometries.map(geoJSONToWKTExtended).join(', ')` of the
GeometryCollection case. -/
def geoWktJoin : List Geometry → List Char
  | [] => []
  | [g] => geoJSONToWKTExtended g
  | g :: g2 :: gs => geoJSONToWKTExtended g ++ ',' :: ' ' :: geoWktJoin (g2 :: gs)

end

/-!
## Vocabulary for the amended claims

The counterexamples below show that the parser emits each WKT coordinate
pair swapped while the serialiser does not swap; the amended round-trip
statements are phrased with the following definitions.
-/

/-- Reversal of one coordinate pair. -/
def swapPair (p : JsNum × JsNum) : JsNum × JsNum := (p.2, p.1)

/-- A geometry with every coordinate pair reversed (collections unchanged;
they are outside the round-trip claims). -/
def swapSimple : Geometry → Geometry
  | .point p => .point (swapPair p)
  | .lineString cs => .lineString (cs.map swapPair)
  | .polygon rs => .polygon (rs.map (fun r => r.map swapPair))
  | .multiPoint cs => .multiPoint (cs.map swapPair)
  | .multiLineString ls => .multiLineString (ls.map (fun r => r.map swapPair))
  | .multiPolygon ps => .multiPolygon (ps.map (fun pg => pg.map (fun r => r.map swapPair)))
  | .geometryCollection gs => .geometryCollection gs

/-- A coordinate that survives printing and reparsing exactly: a finite
decimal whose serialised form parses back to itself (the floating-point
tolerance hypothesis of the round-trip claim, made exact). -/
def NumOK : JsNum → Prop
  | some d => parseFloatD (printD d) = some d
  | none => False

/-- Both components of a pair are well-formed numbers. -/
def PairOK (p : JsNum × JsNum) : Prop := NumOK p.1 ∧ NumOK p.2

/-- The geometries for which the swapped round trip is provable: Points,
nonempty LineStrings, and single-ring Polygons with well-formed
coordinates.  For the nested multi-part types the lazy body extraction
`(.*?)\)` truncates the serialised text at the first `)`, so even the
swapped round trip fails there. -/
def SimpleWF : Geometry → Prop
  | .point p => PairOK p
  | .lineString cs => cs ≠ [] ∧ ∀ p ∈ cs, PairOK p
  | .polygon rs => ∃ r, rs = [r] ∧ r ≠ [] ∧ ∀ p ∈ r, PairOK p
  | _ => False

/-- The trimmed input matches some supported geometry-type anchor
`/^KW\s*\(/i` (the guard of one of the seven branches). -/
def recognizedType (t : List Char) : Prop :=
  prefixMatch kwPOINT t = true ∨ prefixMatch kwLINESTRING t = true ∨
  prefixMatch kwPOLYGON t = true ∨ prefixMatch kwMULTIPOINT t = true ∨
  prefixMatch kwMULTILINESTRING t = true ∨ prefixMatch kwMULTIPOLYGON t = true ∨
  prefixMatch kwGEOMETRYCOLLECTION t = true

/-- Some geometry-type anchor matches but that branch's extraction regular
expression finds no match. -/
def recognizedNoExtract (t : List Char) : Prop :=
  (prefixMatch kwPOINT t = true ∧ extractPoint t = none) ∨
  (prefixMatch kwLINESTRING t = true ∧ extractBody kwLINESTRING t = none) ∨
  (prefixMatch kwPOLYGON t = true ∧ extractBody kwPOLYGON t = none) ∨
  (prefixMatch kwMULTIPOINT t = true ∧ extractBody kwMULTIPOINT t = none) ∨
  (prefixMatch kwMULTILINESTRING t = true ∧ extractBody kwMULTILINESTRING t = none) ∨
  (prefixMatch kwMULTIPOLYGON t = true ∧ extractBody kwMULTIPOLYGON t = none) ∨
  (prefixMatch kwGEOMETRYCOLLECTION t = true ∧ extractBody kwGEOMETRYCOLLECTION t = none)

/-!
## Text diff engine (`src/utils/dev/diffUtils.ts`)

The sequence-alignment collaborator is the external `diff-match-patch`
library; the specification treats it as a black box returning ordered
`(operation, text)` runs with operation insert (1) / delete (-1) / equal (0).
Its pieces (`diff_linesToChars_`, `diff_main`, `diff_charsToLines_`,
`diff_cleanupSemantic`) are therefore modelled from the spec below, while the
functions of `diffUtils.ts` itself are translated from the source.
-/

/-- Modelled from the spec: the line munge of `diff_linesToChars_` — cut the
text into lines, each keeping its trailing newline (the last may lack one). -/
def splitLinesKeepAux : List Char → List Char → List (List Char)
  | acc, [] => if acc = [] then [] else [acc.reverse]
  | acc, '\n' :: r => (acc.reverse ++ ['\n']) :: splitLinesKeepAux [] r
  | acc, c :: r => splitLinesKeepAux (c :: acc) r

/-- Lines of a text, trailing newlines kept. -/
def splitLinesKeep (s : List Char) : List (List Char) := splitLinesKeepAux [] s

/-- Modelled from the spec: encode each line as its index in the growing
shared line array, reusing the index of a line already present. -/
def mungeLines : List (List Char) → List (List Char) → List Nat × List (List Char)
  | arr, [] => ([], arr)
  | arr, l :: ls =>
    match arr.findIdx? (fun x => x == l) with
    | some i =>
      let r := mungeLines arr ls
      (i :: r.1, r.2)
    | none =>
      let r := mungeLines (arr ++ [l]) ls
      (arr.length :: r.1, r.2)

/-- Modelled from the spec: `diff_linesToChars_`, encoding both texts over a
shared line array whose index 0 is a placeholder empty line. -/
def diff_linesToChars (t1 t2 : List Char) : List Nat × List Nat × List (List Char) :=
  let r1 := mungeLines [[]] (splitLinesKeep t1)
  let r2 := mungeLines r1.2 (splitLinesKeep t2)
  (r1.1, r2.1, r2.2)

/-- Longest common prefix of two sequences. -/
def commonPre {α : Type} [DecidableEq α] : List α → List α → List α
  | a :: as, b :: bs => if a = b then a :: commonPre as bs else []
  | _, _ => []

/-- Longest common suffix of two sequences. -/
def commonSuf {α : Type} [DecidableEq α] (a b : List α) : List α :=
  (commonPre a.reverse b.reverse).reverse

/-- Modelled from the spec: the black-box aligner `diff_main` — equal inputs
give one equal run (none when empty); otherwise the common prefix and suffix
become equal runs and the differing middles one delete and one insert run.
This reproduces the spec's literal diff cases. -/
def diffMain {α : Type} [DecidableEq α] (a b : List α) : List (Int × List α) :=
  if a = b then (if a = [] then [] else [(0, a)]) else
  let p := commonPre a b
  let a1 := a.drop p.length
  let b1 := b.drop p.length
  let s := commonSuf a1 b1
  let a2 := a1.take (a1.length - s.length)
  let b2 := b1.take (b1.length - s.length)
  let mid : List (Int × List α) :=
    if a2 = [] then [(1, b2)]
    else if b2 = [] then [(-1, a2)]
    else [(-1, a2), (1, b2)]
  (if p = [] then [] else [(0, p)]) ++ mid ++ (if s = [] then [] else [(0, s)])

/-- Modelled from the spec: `diff_charsToLines_` decodes token runs back into
text through the line array. -/
def diff_charsToLines (ds : List (Int × List Nat)) (arr : List (List Char)) :
    List (Int × List Char) :=
  ds.map (fun d => (d.1, (d.2.map (fun t => arr.getD t [])).flatten))

/-- `diffLineMode` of `diffUtils.ts`: encode lines, align, decode. -/
def diffLineMode (t1 t2 : List Char) : List (Int × List Char) :=
  let enc := diff_linesToChars t1 t2
  diff_charsToLines (diffMain enc.1 enc.2.1) enc.2.2

/-- Modelled from the spec: `diff_cleanupSemantic` merges fragmented
adjacent edits — modelled as merging adjacent runs of equal operation and
dropping empty runs (fuel-indexed by the list length, which suffices since
every step shortens the list). -/
def cleanupSemanticAux : Nat → List (Int × List Char) → List (Int × List Char)
  | 0, ds => ds
  | _ + 1, [] => []
  | _ + 1, [d] => if d.2 = [] then [] else [d]
  | fuel + 1, d1 :: d2 :: ds =>
    if d1.2 = [] then cleanupSemanticAux fuel (d2 :: ds)
    else if d1.1 = d2.1 then cleanupSemanticAux fuel ((d1.1, d1.2 ++ d2.2) :: ds)
    else d1 :: cleanupSemanticAux fuel (d2 :: ds)

/-- Modelled from the spec: `diff_cleanupSemantic`. -/
def diff_cleanupSemantic (ds : List (Int × List Char)) : List (Int × List Char) :=
  cleanupSemanticAux ds.length ds

/-- Classification of a diff record. -/
inductive DiffOp where
  | added
  | removed
  | unchanged
deriving DecidableEq, Repr

/-- `DiffResult` of `diffUtils.ts`; `computeDiff` always supplies
`lineNumber`. -/
structure DiffResult where
  type : DiffOp
  text : List Char
  lineNumber : Nat
deriving DecidableEq, Repr

/-- `DiffLine` of `diffUtils.ts`. -/
structure DiffLine where
  type : DiffOp
  text : List Char
  oldLineNumber : Option Nat
  newLineNumber : Option Nat
deriving DecidableEq, Repr

/-- The per-operation emission loop of `computeDiff`: every line except the
last gets its newline restored and is always emitted; the last is emitted
only when nonempty; the single counter advances on unchanged lines only. -/
def cdLines (op : Int) : List (List Char) → Nat → List DiffResult × Nat
  | [], n => ([], n)
  | [l], n =>
    if l = [] then ([], n)
    else if op = 1 then ([⟨.added, l, n⟩], n)
    else if op = -1 then ([⟨.removed, l, n⟩], n)
    else ([⟨.unchanged, l, n⟩], n + 1)
  | l :: l2 :: ls, n =>
    let lw := l ++ ['\n']
    if op = 1 then
      let r := cdLines op (l2 :: ls) n
      (⟨.added, lw, n⟩ :: r.1, r.2)
    else if op = -1 then
      let r := cdLines op (l2 :: ls) n
      (⟨.removed, lw, n⟩ :: r.1, r.2)
    else
      let r := cdLines op (l2 :: ls) (n + 1)
      (⟨.unchanged, lw, n⟩ :: r.1, r.2)

/-- The outer loop of `computeDiff` over the diff runs. -/
def cdGo : List (Int × List Char) → Nat → List DiffResult
  | [], _ => []
  | (op, text) :: ds, n =>
    let r := cdLines op (splitOnChar '\n' text) n
    r.1 ++ cdGo ds r.2

/-- The `mode` selector of `computeDiff`. -/
inductive DiffMode where
  | line
  | word
  | char
deriving DecidableEq, Repr

/-- `computeDiff` of `diffUtils.ts`. -/
def computeDiff (oldText newText : List Char) (mode : DiffMode) : List DiffResult :=
  let diffs :=
    match mode with
    | .line => diffLineMode oldText newText
    | .word => diff_cleanupSemantic (diffMain oldText newText)
    | .char => diffMain oldText newText
  cdGo diffs 1

/-- Emission of one line by `computeLineDiff`: added records carry only the
new counter, removed only the old, unchanged both; the corresponding
counters advance. -/
def cldOne (op : Int) (l : List Char) (o n : Nat) : DiffLine × Nat × Nat :=
  if op = 1 then (⟨.added, l, none, some n⟩, o, n + 1)
  else if op = -1 then (⟨.removed, l, some o, none⟩, o + 1, n)
  else (⟨.unchanged, l, some o, some n⟩, o + 1, n + 1)

/-- The per-operation loop of `computeLineDiff`: a line is kept when it is
not the last of its run, or is a nonempty last. -/
def cldLines (op : Int) : List (List Char) → Nat → Nat → List DiffLine × Nat × Nat
  | [], o, n => ([], o, n)
  | [l], o, n =>
    if l = [] then ([], o, n)
    else
      let r := cldOne op l o n
      ([r.1], r.2.1, r.2.2)
  | l :: l2 :: ls, o, n =>
    let r := cldOne op l o n
    let rest := cldLines op (l2 :: ls) r.2.1 r.2.2
    (r.1 :: rest.1, rest.2)

/-- The outer loop of `computeLineDiff` over the diff runs. -/
def cldGo : List (Int × List Char) → Nat → Nat → List DiffLine
  | [], _, _ => []
  | (op, text) :: ds, o, n =>
    let r := cldLines op (splitOnChar '\n' text) o n
    r.1 ++ cldGo ds r.2.1 r.2.2

/-- `computeLineDiff` of `diffUtils.ts`. -/
def computeLineDiff (oldText newText : List Char) : List DiffLine :=
  cldGo (diffLineMode oldText newText) 1 1

/-- The mutable state of `formatUnifiedDiff`'s loop. -/
structure FudState where
  output : List Char
  oldLineN : Nat
  newLineN : Nat
  hunkStartOld : Nat
  hunkStartNew : Nat
  hunkLines : List (List Char)
deriving Repr

/-- The `@@ -start,count +start,count @@` hunk header, counts taken from the
running counters.  (The counts are in `Nat`; they never go negative in the
source either, since each hunk start is reset to the counter value as the
preceding unchanged line is consumed.) -/
def fudHeader (st : FudState) : List Char :=
  "@@ -".data ++ natDigits st.hunkStartOld ++ ',' ::
    natDigits (st.oldLineN - st.hunkStartOld) ++
    " +".data ++ natDigits st.hunkStartNew ++ ',' ::
    natDigits (st.newLineN - st.hunkStartNew) ++ " @@".data ++ ['\n']

/-- Emit the pending hunk, if any. -/
def fudFlush (st : FudState) : FudState :=
  if st.hunkLines = [] then st
  else
    { st with
      output := st.output ++ fudHeader st ++ List.intercalate ['\n'] st.hunkLines ++ ['\n'],
      hunkLines := [] }

/-- One kept line of `formatUnifiedDiff`: additions and removals accumulate
into the pending hunk; an unchanged line flushes it and resets the hunk
starts. -/
def fudOne (op : Int) (l : List Char) (st : FudState) : FudState :=
  if op = 1 then { st with hunkLines := st.hunkLines ++ ['+' :: l], newLineN := st.newLineN + 1 }
  else if op = -1 then
    { st with hunkLines := st.hunkLines ++ ['-' :: l], oldLineN := st.oldLineN + 1 }
  else
    let st1 := fudFlush st
    { st1 with
      hunkStartOld := st1.oldLineN + 1, hunkStartNew := st1.newLineN + 1,
      oldLineN := st1.oldLineN + 1, newLineN := st1.newLineN + 1 }

/-- The per-operation loop of `formatUnifiedDiff` (same keep condition as
`computeLineDiff`). -/
def fudLines (op : Int) : List (List Char) → FudState → FudState
  | [], st => st
  | [l], st => if l = [] then st else fudOne op l st
  | l :: l2 :: ls, st => fudLines op (l2 :: ls) (fudOne op l st)

/-- The outer loop of `formatUnifiedDiff`. -/
def fudGo : List (Int × List Char) → FudState → FudState
  | [], st => st
  | (op, text) :: ds, st => fudGo ds (fudLines op (splitOnChar '\n' text) st)

/-- `formatUnifiedDiff` of `diffUtils.ts` (the source defaults `oldFile` and
`newFile` to `"old"` and `"new"`). -/
def formatUnifiedDiff (oldText newText oldFile newFile : List Char) : List Char :=
  let st0 : FudState :=
    ⟨"--- ".data ++ oldFile ++ '\n' :: "+++ ".data ++ newFile ++ ['\n'], 1, 1, 1, 1, []⟩
  (fudFlush (fudGo (diffLineMode oldText newText) st0)).output

/-!
## Character-class and list lemmas
-/

theorem toNat_of_isNumTokChar {c : Char} (h : isNumTokChar c = true) :
    c.toNat = 45 ∨ c.toNat = 46 ∨ (48 ≤ c.toNat ∧ c.toNat ≤ 57) := by
  simp only [isNumTokChar, Bool.or_eq_true, decide_eq_true_eq] at h
  rcases h with (h | h) | h
  · right; right
    simp only [Char.isDigit, Bool.and_eq_true, decide_eq_true_eq] at h
    exact ⟨h.1, h.2⟩
  · subst h; left; rfl
  · subst h; right; left; rfl

theorem isJsWs_eq_false_of_isNumTokChar {c : Char} (h : isNumTokChar c = true) :
    isJsWs c = false := by
  have hv := toNat_of_isNumTokChar h
  simp only [isJsWs, Bool.or_eq_false_iff, decide_eq_false_iff_not, Bool.and_eq_false_iff]
  refine ⟨⟨⟨⟨⟨⟨⟨⟨⟨⟨⟨⟨⟨⟨?_, ?_⟩, ?_⟩, ?_⟩, ?_⟩, ?_⟩, ?_⟩, ?_⟩, ?_⟩, ?_⟩, ?_⟩, ?_⟩, ?_⟩, ?_⟩, ?_⟩
  all_goals first
    | (intro hc; subst hc; exact absurd hv (by decide))
    | omega

theorem isLineTerm_eq_false_of_isNumTokChar {c : Char} (h : isNumTokChar c = true) :
    isLineTerm c = false := by
  have hv := toNat_of_isNumTokChar h
  simp only [isLineTerm, Bool.or_eq_false_iff, decide_eq_false_iff_not]
  refine ⟨⟨⟨?_, ?_⟩, ?_⟩, ?_⟩
  all_goals intro hc; subst hc; exact absurd hv (by decide)

theorem isNumTokChar_ne {c w : Char} (h : isNumTokChar c = true)
    (hw : w.toNat = 40 ∨ w.toNat = 41 ∨ w.toNat = 44 ∨ w.toNat = 32) : c ≠ w := by
  have hv := toNat_of_isNumTokChar h
  intro hcw
  have := congrArg Char.toNat hcw
  omega

theorem takeWhile_append_not {α : Type} {p : α → Bool} {t r : List α} {c : α}
    (ht : ∀ x ∈ t, p x = true) (hc : p c = false) :
    (t ++ c :: r).takeWhile p = t := by
  induction t with
  | nil => simp [List.takeWhile_cons, hc]
  | cons a as ih =>
    rw [List.cons_append, List.takeWhile_cons, if_pos (ht a (List.mem_cons_self a as))]
    exact congrArg _ (ih fun x hx => ht x (List.mem_cons_of_mem _ hx))

theorem dropWhile_append_not {α : Type} {p : α → Bool} {t r : List α} {c : α}
    (ht : ∀ x ∈ t, p x = true) (hc : p c = false) :
    (t ++ c :: r).dropWhile p = c :: r := by
  induction t with
  | nil => simp [List.dropWhile_cons, hc]
  | cons a as ih =>
    rw [List.cons_append, List.dropWhile_cons, if_pos (ht a (List.mem_cons_self a as))]
    exact ih fun x hx => ht x (List.mem_cons_of_mem _ hx)

theorem dropWhile_of_head_not {α : Type} {p : α → Bool} {c : α} {cs : List α}
    (hc : p c = false) : (c :: cs).dropWhile p = c :: cs := by
  rw [List.dropWhile_cons, if_neg (by simp [hc])]

theorem takeWhile_of_all {α : Type} {p : α → Bool} {t : List α}
    (h : ∀ x ∈ t, p x = true) : t.takeWhile p = t := by
  induction t with
  | nil => rfl
  | cons a as ih =>
    rw [List.takeWhile_cons, if_pos (h a (List.mem_cons_self a as))]
    exact congrArg _ (ih fun x hx => h x (List.mem_cons_of_mem _ hx))

theorem mem_of_head?_eq {α : Type} {l : List α} {c : α} (h : l.head? = some c) : c ∈ l := by
  cases l with
  | nil => simp at h
  | cons a as =>
    simp only [List.head?_cons, Option.some.injEq] at h
    subst h
    exact List.mem_cons_self _ _

theorem mem_of_getLast?_eq {α : Type} {l : List α} {c : α} (h : l.getLast? = some c) :
    c ∈ l := by
  rw [← List.head?_reverse] at h
  exact List.mem_reverse.mp (mem_of_head?_eq h)

theorem head?_append_left {α : Type} {l r : List α} (h : l ≠ []) :
    (l ++ r).head? = l.head? := by
  cases l with
  | nil => exact absurd rfl h
  | cons a as => rfl

theorem getLast?_append_right {α : Type} {l r : List α} (h : r ≠ []) :
    (l ++ r).getLast? = r.getLast? := by
  rw [← List.head?_reverse, ← List.head?_reverse, List.reverse_append]
  exact head?_append_left (by simpa using h)

/-!
## Trimming, whitespace splitting and comma splitting
-/

theorem jsTrim_eq_self {s : List Char}
    (h1 : ∀ c, s.head? = some c → isJsWs c = false)
    (h2 : ∀ c, s.getLast? = some c → isJsWs c = false) : jsTrim s = s := by
  cases s with
  | nil => rfl
  | cons a as =>
    unfold jsTrim
    rw [dropWhile_of_head_not (h1 a rfl)]
    have hrev : List.dropWhile isJsWs ((a :: as).reverse) = (a :: as).reverse := by
      rcases hr : (a :: as).reverse with _ | ⟨d, ds⟩
      · rfl
      · exact dropWhile_of_head_not (h2 d (by rw [← List.head?_reverse, hr]; rfl))
    rw [hrev, List.reverse_reverse]

theorem jsTrim_eq_self_of_mem {s : List Char} (h : ∀ c ∈ s, isJsWs c = false) :
    jsTrim s = s :=
  jsTrim_eq_self (fun c hc => h c (mem_of_head?_eq hc))
    (fun c hc => h c (mem_of_getLast?_eq hc))

theorem jsTrim_ws_cons (s : List Char) : jsTrim (' ' :: s) = jsTrim s := by
  unfold jsTrim
  rw [List.dropWhile_cons, if_pos (by decide)]

theorem splitWsAux_no_ws {t : List Char} (h : ∀ c ∈ t, isJsWs c = false) :
    ∀ acc, splitWsAux false acc t = [acc.reverse ++ t] := by
  induction t with
  | nil => intro acc; simp [splitWsAux]
  | cons c cs ih =>
    intro acc
    rw [splitWsAux, if_neg (by simp [h c (List.mem_cons_self c cs)])]
    rw [ih (fun x hx => h x (List.mem_cons_of_mem _ hx))]
    simp

theorem splitWsAux_word {t : List Char} (h : ∀ c ∈ t, isJsWs c = false) (rest : List Char) :
    ∀ acc, splitWsAux false acc (t ++ ' ' :: rest) =
      (acc.reverse ++ t) :: splitWsAux true [] rest := by
  induction t with
  | nil =>
    intro acc
    rw [List.nil_append, splitWsAux, if_pos (by decide)]
    simp
  | cons c cs ih =>
    intro acc
    rw [List.cons_append, splitWsAux, if_neg (by simp [h c (List.mem_cons_self c cs)])]
    rw [ih (fun x hx => h x (List.mem_cons_of_mem _ hx))]
    simp

theorem splitWsAux_last {t : List Char} (ht : t ≠ [])
    (h : ∀ c ∈ t, isJsWs c = false) : splitWsAux true [] t = [t] := by
  cases t with
  | nil => exact absurd rfl ht
  | cons c cs =>
    rw [splitWsAux, if_neg (by simp [h c (List.mem_cons_self c cs)])]
    rw [splitWsAux_no_ws (fun x hx => h x (List.mem_cons_of_mem _ hx))]
    rfl

theorem splitWs_pair {t1 t2 : List Char} (h2 : t2 ≠ [])
    (hc1 : ∀ c ∈ t1, isJsWs c = false) (hc2 : ∀ c ∈ t2, isJsWs c = false) :
    splitWs (t1 ++ ' ' :: t2) = [t1, t2] := by
  unfold splitWs
  rw [splitWsAux_word hc1, splitWsAux_last h2 hc2]
  rfl

theorem splitOnChar_no_sep {sep : Char} {s : List Char} (h : ∀ c ∈ s, c ≠ sep) :
    splitOnChar sep s = [s] := by
  induction s with
  | nil => rfl
  | cons c cs ih =>
    rw [splitOnChar, if_neg (h c (List.mem_cons_self c cs))]
    rw [ih fun x hx => h x (List.mem_cons_of_mem _ hx)]

theorem splitOnChar_append {sep : Char} {t r : List Char} (h : ∀ c ∈ t, c ≠ sep) :
    splitOnChar sep (t ++ sep :: r) = t :: splitOnChar sep r := by
  induction t with
  | nil => rw [List.nil_append, splitOnChar, if_pos rfl]
  | cons c cs ih =>
    rw [List.cons_append, splitOnChar, if_neg (h c (List.mem_cons_self c cs))]
    rw [ih fun x hx => h x (List.mem_cons_of_mem _ hx)]

theorem splitOnChar_joinComma :
    ∀ (p0 : List Char) (ps : List (List Char)), (∀ c ∈ p0, c ≠ ',') →
      (∀ p ∈ ps, ∀ c ∈ p, c ≠ ',') →
      splitOnChar ',' (joinComma (p0 :: ps)) = p0 :: ps.map (fun p => ' ' :: p) := by
  intro p0 ps
  induction ps generalizing p0 with
  | nil => intro h0 _; exact splitOnChar_no_sep h0
  | cons p1 rest ih =>
    intro h0 hps
    rw [joinComma, splitOnChar_append h0, splitOnChar, if_neg (by decide)]
    rw [ih p1 (hps p1 (List.mem_cons_self p1 rest))
      (fun p hp => hps p (List.mem_cons_of_mem _ hp))]
    rfl

/-!
## Serialised numbers: character classes
-/

theorem digitChar_isNumTok {k : Nat} (hk : k < 10) :
    isNumTokChar (Nat.digitChar k) = true := by
  interval_cases k <;> decide

theorem natDigitsAux_mem :
    ∀ (fuel n : Nat), ∀ c ∈ natDigitsAux fuel n, isNumTokChar c = true := by
  intro fuel
  induction fuel with
  | zero => intro n c hc; simp [natDigitsAux] at hc
  | succ fuel ih =>
    intro n c hc
    rw [natDigitsAux] at hc
    by_cases h : n < 10
    · rw [if_pos h] at hc
      simp only [List.mem_singleton] at hc
      subst hc
      exact digitChar_isNumTok h
    · rw [if_neg h] at hc
      rcases List.mem_append.mp hc with h1 | h1
      · exact ih _ c h1
      · simp only [List.mem_singleton] at h1
        subst h1
        exact digitChar_isNumTok (Nat.mod_lt _ (by norm_num))

theorem natDigits_mem {n : Nat} : ∀ c ∈ natDigits n, isNumTokChar c = true :=
  natDigitsAux_mem _ _

theorem natDigits_ne_nil (n : Nat) : natDigits n ≠ [] := by
  unfold natDigits natDigitsAux
  by_cases h : n < 10
  · simp [h]
  · rw [if_neg h]
    simp

theorem padZeros_mem {k : Nat} {ds : List Char} (h : ∀ c ∈ ds, isNumTokChar c = true) :
    ∀ c ∈ padZeros k ds, isNumTokChar c = true := by
  intro c hc
  rcases List.mem_append.mp hc with h1 | h1
  · rw [List.eq_of_mem_replicate h1]; decide
  · exact h c h1

theorem printD_mem {d : Dec} : ∀ c ∈ printD d, isNumTokChar c = true := by
  intro c hc
  simp only [printD] at hc
  rcases List.mem_append.mp hc with h1 | h1
  · rcases List.mem_append.mp h1 with h2 | h2
    · by_cases hm : d.m < 0
      · rw [if_pos hm] at h2
        simp only [List.mem_singleton] at h2
        subst h2; decide
      · rw [if_neg hm] at h2
        simp at h2
    · exact natDigits_mem c h2
  · by_cases hf : d.m.natAbs % 10 ^ d.e = 0
    · rw [if_pos hf] at h1
      simp at h1
    · rw [if_neg hf] at h1
      rcases List.mem_cons.mp h1 with h2 | h2
      · subst h2; decide
      · exact padZeros_mem natDigits_mem c h2

theorem printD_ne_nil (d : Dec) : printD d ≠ [] := by
  simp only [printD]
  intro hcon
  rcases List.append_eq_nil.mp hcon with ⟨h1, _⟩
  rcases List.append_eq_nil.mp h1 with ⟨_, h3⟩
  exact natDigits_ne_nil _ h3

theorem printD_not_ws {d : Dec} : ∀ c ∈ printD d, isJsWs c = false :=
  fun c hc => isJsWs_eq_false_of_isNumTokChar (printD_mem c hc)

/-!
## Coordinate tokens
-/

theorem jsTrim_token_pair {t1 t2 : List Char} (h1 : t1 ≠ []) (h2 : t2 ≠ [])
    (hm1 : ∀ c ∈ t1, isNumTokChar c = true) (hm2 : ∀ c ∈ t2, isNumTokChar c = true) :
    jsTrim (t1 ++ ' ' :: t2) = t1 ++ ' ' :: t2 := by
  apply jsTrim_eq_self
  · intro c hc
    rw [head?_append_left h1] at hc
    exact isJsWs_eq_false_of_isNumTokChar (hm1 c (mem_of_head?_eq hc))
  · intro c hc
    rw [getLast?_append_right (List.cons_ne_nil _ _),
      show (' ' :: t2) = [' '] ++ t2 from rfl, getLast?_append_right h2] at hc
    exact isJsWs_eq_false_of_isNumTokChar (hm2 c (mem_of_getLast?_eq hc))

/-- The token mapper used by the LineString/Polygon/MultiLineString branches
emits, for the token `x y`, the pair `[parseFloat y, parseFloat x]`. -/
theorem parseCoordPair_token_swap {t1 t2 : List Char} (h1 : t1 ≠ []) (h2 : t2 ≠ [])
    (hm1 : ∀ c ∈ t1, isNumTokChar c = true) (hm2 : ∀ c ∈ t2, isNumTokChar c = true) :
    parseCoordPair (t1 ++ ' ' :: t2) = (parseFloatD t2, parseFloatD t1) := by
  unfold parseCoordPair
  rw [jsTrim_token_pair h1 h2 hm1 hm2,
    splitWs_pair h2 (fun c hc => isJsWs_eq_false_of_isNumTokChar (hm1 c hc))
      (fun c hc => isJsWs_eq_false_of_isNumTokChar (hm2 c hc))]
  rfl

theorem pairOK_shape {p : JsNum × JsNum} (h : PairOK p) :
    ∃ a b, p = (some a, some b) ∧ parseFloatD (printD a) = some a ∧
      parseFloatD (printD b) = some b := by
  obtain ⟨x, y⟩ := p
  cases x with
  | none => exact h.1.elim
  | some a =>
    cases y with
    | none => exact h.2.elim
    | some b => exact ⟨a, b, rfl, h.1, h.2⟩

theorem pairTok_eq {a b : Dec} :
    pairTok (some a, some b) = printD a ++ ' ' :: printD b := rfl

theorem pairTok_mem {p : JsNum × JsNum} (h : PairOK p) :
    ∀ c ∈ pairTok p, isNumTokChar c = true ∨ c = ' ' := by
  obtain ⟨a, b, rfl, -, -⟩ := pairOK_shape h
  intro c hc
  rw [pairTok_eq] at hc
  rcases List.mem_append.mp hc with h1 | h1
  · exact Or.inl (printD_mem c h1)
  · rcases List.mem_cons.mp h1 with h1 | h1
    · exact Or.inr h1
    · exact Or.inl (printD_mem c h1)

theorem parseCoordPair_pairTok {p : JsNum × JsNum} (h : PairOK p) :
    parseCoordPair (pairTok p) = swapPair p := by
  obtain ⟨a, b, rfl, ha, hb⟩ := pairOK_shape h
  rw [pairTok_eq,
    parseCoordPair_token_swap (printD_ne_nil a) (printD_ne_nil b) printD_mem printD_mem,
    ha, hb]
  rfl

theorem parseCoordPair_sp_pairTok {p : JsNum × JsNum} (h : PairOK p) :
    parseCoordPair (' ' :: pairTok p) = swapPair p := by
  obtain ⟨a, b, rfl, ha, hb⟩ := pairOK_shape h
  unfold parseCoordPair
  rw [pairTok_eq, jsTrim_ws_cons,
    jsTrim_token_pair (printD_ne_nil a) (printD_ne_nil b) printD_mem printD_mem,
    splitWs_pair (printD_ne_nil b) printD_not_ws printD_not_ws]
  show (parseFloatD (printD b), parseFloatD (printD a)) = _
  rw [ha, hb]
  rfl

theorem pairTok_no_comma {p : JsNum × JsNum} (h : PairOK p) :
    ∀ c ∈ pairTok p, c ≠ ',' := by
  intro c hc
  rcases pairTok_mem h c hc with h1 | h1
  · exact isNumTokChar_ne h1 (Or.inr (Or.inr (Or.inl (by decide))))
  · subst h1; decide

/-!
## Serialised coordinate lists
-/

theorem joinComma_mem (P : Char → Prop) (hsp : P ' ') (hcm : P ',') :
    ∀ (ps : List (List Char)), (∀ p ∈ ps, ∀ c ∈ p, P c) → ∀ c ∈ joinComma ps, P c := by
  intro ps
  induction ps with
  | nil => intro _ c hc; simp [joinComma] at hc
  | cons p rest ih =>
    intro h c hc
    cases rest with
    | nil => exact h p (List.mem_cons_self p []) c hc
    | cons p2 ps2 =>
      rw [joinComma] at hc
      rcases List.mem_append.mp hc with h1 | h1
      · exact h p (List.mem_cons_self _ _) c h1
      · rcases List.mem_cons.mp h1 with h2 | h2
        · subst h2; exact hcm
        · rcases List.mem_cons.mp h2 with h3 | h3
          · subst h3; exact hsp
          · exact ih (fun q hq => h q (List.mem_cons_of_mem _ hq)) c h3

theorem joinPairs_mem {cs : List (JsNum × JsNum)} (h : ∀ p ∈ cs, PairOK p) :
    ∀ c ∈ joinPairs cs, isNumTokChar c = true ∨ c = ' ' ∨ c = ',' := by
  unfold joinPairs
  apply joinComma_mem (fun c => isNumTokChar c = true ∨ c = ' ' ∨ c = ',')
    (Or.inr (Or.inl rfl)) (Or.inr (Or.inr rfl))
  intro q hq c hcq
  obtain ⟨p, hp, rfl⟩ := List.mem_map.mp hq
  rcases pairTok_mem (h p hp) c hcq with h1 | h1
  · exact Or.inl h1
  · exact Or.inr (Or.inl h1)

theorem bodyChar_ne_rparen {c : Char} (h : isNumTokChar c = true ∨ c = ' ' ∨ c = ',') :
    c ≠ ')' := by
  rcases h with h | h | h
  · exact isNumTokChar_ne h (Or.inr (Or.inl (by decide)))
  · subst h; decide
  · subst h; decide

theorem bodyChar_ne_lparen {c : Char} (h : isNumTokChar c = true ∨ c = ' ' ∨ c = ',') :
    c ≠ '(' := by
  rcases h with h | h | h
  · exact isNumTokChar_ne h (Or.inl (by decide))
  · subst h; decide
  · subst h; decide

theorem bodyChar_not_lineTerm {c : Char} (h : isNumTokChar c = true ∨ c = ' ' ∨ c = ',') :
    isLineTerm c = false := by
  rcases h with h | h | h
  · exact isLineTerm_eq_false_of_isNumTokChar h
  · subst h; decide
  · subst h; decide

theorem lineBody_joinPairs {cs : List (JsNum × JsNum)} (hne : cs ≠ [])
    (h : ∀ p ∈ cs, PairOK p) : lineBody (joinPairs cs) = cs.map swapPair := by
  cases cs with
  | nil => exact absurd rfl hne
  | cons p0 rest =>
    unfold lineBody joinPairs
    rw [List.map_cons,
      splitOnChar_joinComma (pairTok p0) (rest.map pairTok)
        (pairTok_no_comma (h p0 (List.mem_cons_self _ _)))
        (fun q hq => by
          obtain ⟨p, hp, rfl⟩ := List.mem_map.mp hq
          exact pairTok_no_comma (h p (List.mem_cons_of_mem _ hp)))]
    rw [List.map_cons, parseCoordPair_pairTok (h p0 (List.mem_cons_self _ _)),
      List.map_map, List.map_cons]
    congr 1
    rw [List.map_map]
    apply List.map_congr_left
    intro p hp
    exact parseCoordPair_sp_pairTok (h p (List.mem_cons_of_mem _ hp))

/-!
## Matching the serialised forms
-/

theorem kwMatchCI_cons (k c : Char) (ks cs : List Char) :
    kwMatchCI (k :: ks) (c :: cs) =
      if c.toLower = k.toLower then kwMatchCI ks cs else none := rfl

theorem kwMatchCI_self : ∀ (kw r : List Char), kwMatchCI kw (kw ++ r) = some r := by
  intro kw
  induction kw with
  | nil => intro r; rfl
  | cons k ks ih =>
    intro r
    rw [List.cons_append, kwMatchCI_cons, if_pos rfl]
    exact ih r

theorem searchPos_head {α : Type} {m : List Char → Option α} {s : List Char} {v : α}
    (h : m s = some v) : searchPos m s = some v := by
  cases s with
  | nil => exact h
  | cons c cs => rw [searchPos, h]

theorem wsParen_paren (r : List Char) : wsParen ('(' :: r) = some r := by
  unfold wsParen
  rw [show munchWs ('(' :: r) = '(' :: r from dropWhile_of_head_not (by decide)]
  rfl

theorem prefixMatch_self (kw r : List Char) : prefixMatch kw (kw ++ '(' :: r) = true := by
  unfold prefixMatch
  rw [kwMatchCI_self]
  simp [wsParen_paren]

theorem prefixMatch_head_ne {kw : List Char} {k c : Char} {ks cs : List Char}
    (hkw : kw = k :: ks) (hne : ¬c.toLower = k.toLower) :
    prefixMatch kw (c :: cs) = false := by
  subst hkw
  unfold prefixMatch
  rw [kwMatchCI_cons, if_neg hne]
  rfl

theorem lazyToParen_append {g r : List Char}
    (h1 : ∀ c ∈ g, c ≠ ')') (h2 : ∀ c ∈ g, isLineTerm c = false) :
    lazyToParen (g ++ ')' :: r) = some (g, r) := by
  induction g with
  | nil => rw [List.nil_append, lazyToParen, if_pos rfl]
  | cons c cs ih =>
    rw [List.cons_append, lazyToParen, if_neg (h1 c (List.mem_cons_self _ _)),
      if_neg (by simp [h2 c (List.mem_cons_self _ _)]),
      ih (fun x hx => h1 x (List.mem_cons_of_mem _ hx))
        (fun x hx => h2 x (List.mem_cons_of_mem _ hx))]
    rfl

theorem bodyAt_shape {kw g r : List Char}
    (h1 : ∀ c ∈ g, c ≠ ')') (h2 : ∀ c ∈ g, isLineTerm c = false) :
    bodyAt kw (kw ++ '(' :: (g ++ ')' :: r)) = some g := by
  unfold bodyAt
  rw [kwMatchCI_self]
  simp [wsParen_paren, lazyToParen_append h1 h2]

theorem extractBody_shape {kw g r : List Char}
    (h1 : ∀ c ∈ g, c ≠ ')') (h2 : ∀ c ∈ g, isLineTerm c = false) :
    extractBody kw (kw ++ '(' :: (g ++ ')' :: r)) = some g :=
  searchPos_head (bodyAt_shape h1 h2)

theorem pointAt_shape {t1 t2 r : List Char} (h1 : t1 ≠ []) (h2 : t2 ≠ [])
    (hm1 : ∀ c ∈ t1, isNumTokChar c = true) (hm2 : ∀ c ∈ t2, isNumTokChar c = true) :
    pointAt (kwPOINT ++ '(' :: (t1 ++ ' ' :: (t2 ++ ')' :: r))) = some (t1, t2) := by
  have e1 : munchWs (t1 ++ ' ' :: (t2 ++ ')' :: r)) = t1 ++ ' ' :: (t2 ++ ')' :: r) := by
    cases t1 with
    | nil => exact absurd rfl h1
    | cons c cs =>
      exact dropWhile_of_head_not
        (isJsWs_eq_false_of_isNumTokChar (hm1 c (List.mem_cons_self c cs)))
  have e2 : numTok (t1 ++ ' ' :: (t2 ++ ')' :: r)) = some (t1, ' ' :: (t2 ++ ')' :: r)) := by
    simp only [numTok,
      takeWhile_append_not hm1 (show isNumTokChar ' ' = false by decide)]
    rw [if_neg h1, List.drop_left]
  have e3 : ws1 (' ' :: (t2 ++ ')' :: r)) = some (t2 ++ ')' :: r) := by
    rw [ws1, if_pos (by decide)]
    congr 1
    cases t2 with
    | nil => exact absurd rfl h2
    | cons c cs =>
      exact dropWhile_of_head_not
        (isJsWs_eq_false_of_isNumTokChar (hm2 c (List.mem_cons_self c cs)))
  have e4 : numTok (t2 ++ ')' :: r) = some (t2, ')' :: r) := by
    simp only [numTok,
      takeWhile_append_not hm2 (show isNumTokChar ')' = false by decide)]
    rw [if_neg h2, List.drop_left]
  have e5 : munchWs (')' :: r) = ')' :: r := dropWhile_of_head_not (by decide)
  unfold pointAt
  rw [kwMatchCI_self]
  simp [wsParen_paren, e1, e2, e3, e4, e5]

theorem tryPoint_shape {t1 t2 : List Char} (h1 : t1 ≠ []) (h2 : t2 ≠ [])
    (hm1 : ∀ c ∈ t1, isNumTokChar c = true) (hm2 : ∀ c ∈ t2, isNumTokChar c = true) :
    tryPoint (kwPOINT ++ '(' :: (t1 ++ ' ' :: (t2 ++ ')' :: []))) =
      some (.point (parseFloatD t2, parseFloatD t1)) := by
  unfold tryPoint
  rw [if_pos (prefixMatch_self kwPOINT _)]
  unfold extractPoint
  rw [searchPos_head (pointAt_shape h1 h2 hm1 hm2)]
  rfl

/-!
## Branch dispatch and branch skipping
-/

theorem wktToGeoJSONExtended_eq (s : List Char) :
    wktToGeoJSONExtended s =
      match tryPoint (jsTrim s) <|> tryLineString (jsTrim s) <|> tryPolygon (jsTrim s) <|>
          tryMultiPoint (jsTrim s) <|> tryMultiLineString (jsTrim s) <|>
          tryMultiPolygon (jsTrim s) <|> tryGC (wktParse s.length) (jsTrim s) with
      | some g => .ok g
      | none => .error invalidWktMsg := rfl

theorem tryPoint_none {t : List Char} (h : prefixMatch kwPOINT t = false) :
    tryPoint t = none := by
  unfold tryPoint
  rw [if_neg (by simp [h])]

theorem tryLineString_none {t : List Char} (h : prefixMatch kwLINESTRING t = false) :
    tryLineString t = none := by
  unfold tryLineString
  rw [if_neg (by simp [h])]

theorem jsTrim_head_rparen (c : Char) {s : List Char} (h1 : s.head? = some c)
    (hc : isJsWs c = false) (h2 : s.getLast? = some ')') : jsTrim s = s := by
  apply jsTrim_eq_self
  · intro c' hc'
    rw [h1] at hc'
    injection hc' with hc'
    subst hc'
    exact hc
  · intro c' hc'
    rw [h2] at hc'
    injection hc' with hc'
    subst hc'
    decide

theorem getLast?_concat_rparen (l : List Char) : (l ++ [')']).getLast? = some ')' := by
  rw [getLast?_append_right (List.cons_ne_nil _ _)]
  rfl

theorem prefixMatch_head_L {Z : List Char} : prefixMatch kwPOINT ('L' :: Z) = false :=
  prefixMatch_head_ne rfl (by decide)

theorem prefixMatch_head_P {Z : List Char} : prefixMatch kwLINESTRING ('P' :: Z) = false :=
  prefixMatch_head_ne rfl (by decide)

theorem prefixMatch_POINT_POL {Z : List Char} :
    prefixMatch kwPOINT ('P' :: 'O' :: 'L' :: Z) = false := by
  unfold prefixMatch kwPOINT
  rw [kwMatchCI_cons, if_pos rfl, kwMatchCI_cons, if_pos rfl, kwMatchCI_cons,
    if_neg (by decide)]
  rfl

theorem tryPoint_none_LS {X : List Char} : tryPoint (kwLINESTRING ++ '(' :: X) = none :=
  tryPoint_none (by exact prefixMatch_head_L)

theorem tryPoint_none_PG {X : List Char} : tryPoint (kwPOLYGON ++ '(' :: X) = none :=
  tryPoint_none (by exact prefixMatch_POINT_POL)

theorem tryLineString_none_PG {X : List Char} :
    tryLineString (kwPOLYGON ++ '(' :: X) = none :=
  tryLineString_none (by exact prefixMatch_head_P)

/-!
## Ring splitting on serialised polygons
-/

theorem ringSepAt_none {s : List Char} (h : ∀ c, s.head? = some c → c ≠ ')') :
    ringSepAt s = none := by
  rcases s with _ | ⟨c, _ | ⟨c2, r⟩⟩
  · rfl
  · rfl
  · rw [ringSepAt, if_neg (fun hcon => h c rfl hcon.1)]

theorem splitSepAux_ringSep_no_rp :
    ∀ (fuel : Nat) (acc s : List Char), (∀ c ∈ s, c ≠ ')') →
      splitSepAux ringSepAt fuel acc s = [acc.reverse ++ s] := by
  intro fuel
  induction fuel with
  | zero => intro acc s _; rfl
  | succ fuel ih =>
    intro acc s h
    cases s with
    | nil => simp [splitSepAux]
    | cons c cs =>
      rw [splitSepAux,
        ringSepAt_none (fun x hx => by
          injection hx with hx
          subst hx
          exact h c (List.mem_cons_self _ _))]
      rw [ih (c :: acc) cs (fun x hx => h x (List.mem_cons_of_mem _ hx))]
      simp

theorem splitSep_no_rparen {s : List Char} (h : ∀ c ∈ s, c ≠ ')') :
    splitSep ringSepAt s = [s] := by
  unfold splitSep
  rw [splitSepAux_ringSep_no_rp _ [] s h]
  rfl

theorem removeParens_eq_self {s : List Char} (h : ∀ c ∈ s, c ≠ '(' ∧ c ≠ ')') :
    removeParens s = s := by
  unfold removeParens
  apply List.filter_eq_self.mpr
  intro c hc
  simp [(h c hc).1, (h c hc).2]

theorem removeParens_lparen_cons (s : List Char) :
    removeParens ('(' :: s) = removeParens s := by
  simp [removeParens]

theorem ringClean_wrapped {r0 : List (JsNum × JsNum)} (hne : r0 ≠ [])
    (h : ∀ p ∈ r0, PairOK p) :
    ringClean ('(' :: joinPairs r0) = r0.map swapPair := by
  unfold ringClean
  rw [removeParens_lparen_cons,
    removeParens_eq_self (fun c hc =>
      ⟨bodyChar_ne_lparen (joinPairs_mem h c hc), bodyChar_ne_rparen (joinPairs_mem h c hc)⟩)]
  exact lineBody_joinPairs hne h

/-!
## Round-trip lemmas for Point, LineString and single-ring Polygon
-/

theorem tryLineString_shape {cs : List (JsNum × JsNum)} (hne : cs ≠ [])
    (h : ∀ p ∈ cs, PairOK p) :
    tryLineString (kwLINESTRING ++ '(' :: (joinPairs cs ++ ')' :: [])) =
      some (.lineString (cs.map swapPair)) := by
  unfold tryLineString
  rw [if_pos (prefixMatch_self kwLINESTRING _),
    extractBody_shape (fun c hc => bodyChar_ne_rparen (joinPairs_mem h c hc))
      (fun c hc => bodyChar_not_lineTerm (joinPairs_mem h c hc))]
  simp [lineBody_joinPairs hne h]

theorem tryPolygon_shape {r0 : List (JsNum × JsNum)} (hne : r0 ≠ [])
    (h : ∀ p ∈ r0, PairOK p) :
    tryPolygon (kwPOLYGON ++ '(' :: (('(' :: joinPairs r0) ++ ')' :: (')' :: []))) =
      some (.polygon [r0.map swapPair]) := by
  have hg : ∀ c ∈ '(' :: joinPairs r0, c ≠ ')' := by
    intro c hc
    rcases List.mem_cons.mp hc with h1 | h1
    · subst h1; decide
    · exact bodyChar_ne_rparen (joinPairs_mem h c h1)
  unfold tryPolygon
  rw [if_pos (prefixMatch_self kwPOLYGON _),
    extractBody_shape hg (fun c hc => by
      rcases List.mem_cons.mp hc with h1 | h1
      · subst h1; decide
      · exact bodyChar_not_lineTerm (joinPairs_mem h c h1))]
  simp [splitSep_no_rparen hg, ringClean_wrapped hne h]

theorem roundtrip_point {a b : Dec} (ha : parseFloatD (printD a) = some a)
    (hb : parseFloatD (printD b) = some b) :
    wktToGeoJSONExtended (geoJSONToWKTExtended (.point (some a, some b))) =
      .ok (.point (some b, some a)) := by
  have hser : geoJSONToWKTExtended (.point (some a, some b)) =
      kwPOINT ++ '(' :: (printD a ++ ' ' :: (printD b ++ ')' :: [])) := by
    show "POINT(".data ++ printD a ++ ' ' :: printD b ++ [')'] = _
    rw [show "POINT(".data = kwPOINT ++ ['('] from rfl]
    simp
  rw [hser, wktToGeoJSONExtended_eq]
  have htrim : jsTrim (kwPOINT ++ '(' :: (printD a ++ ' ' :: (printD b ++ ')' :: []))) =
      kwPOINT ++ '(' :: (printD a ++ ' ' :: (printD b ++ ')' :: [])) := by
    refine jsTrim_head_rparen 'P' rfl (by decide) ?_
    rw [show kwPOINT ++ '(' :: (printD a ++ ' ' :: (printD b ++ ')' :: [])) =
      (kwPOINT ++ '(' :: (printD a ++ ' ' :: printD b)) ++ [')'] from by simp]
    exact getLast?_concat_rparen _
  rw [htrim,
    tryPoint_shape (printD_ne_nil a) (printD_ne_nil b) printD_mem printD_mem]
  simp [ha, hb]

theorem roundtrip_lineString {cs : List (JsNum × JsNum)} (hne : cs ≠ [])
    (h : ∀ p ∈ cs, PairOK p) :
    wktToGeoJSONExtended (geoJSONToWKTExtended (.lineString cs)) =
      .ok (.lineString (cs.map swapPair)) := by
  have hser : geoJSONToWKTExtended (.lineString cs) =
      kwLINESTRING ++ '(' :: (joinPairs cs ++ ')' :: []) := by
    show "LINESTRING(".data ++ joinPairs cs ++ [')'] = _
    rw [show "LINESTRING(".data = kwLINESTRING ++ ['('] from rfl]
    simp
  rw [hser, wktToGeoJSONExtended_eq]
  have htrim : jsTrim (kwLINESTRING ++ '(' :: (joinPairs cs ++ ')' :: [])) =
      kwLINESTRING ++ '(' :: (joinPairs cs ++ ')' :: []) := by
    refine jsTrim_head_rparen 'L' rfl (by decide) ?_
    rw [show kwLINESTRING ++ '(' :: (joinPairs cs ++ ')' :: []) =
      (kwLINESTRING ++ '(' :: joinPairs cs) ++ [')'] from by simp]
    exact getLast?_concat_rparen _
  rw [htrim, tryPoint_none_LS, tryLineString_shape hne h]
  rfl

theorem roundtrip_polygon {r0 : List (JsNum × JsNum)} (hne : r0 ≠ [])
    (h : ∀ p ∈ r0, PairOK p) :
    wktToGeoJSONExtended (geoJSONToWKTExtended (.polygon [r0])) =
      .ok (.polygon [r0.map swapPair]) := by
  have hser : geoJSONToWKTExtended (.polygon [r0]) =
      kwPOLYGON ++ '(' :: (('(' :: joinPairs r0) ++ ')' :: (')' :: [])) := by
    show "POLYGON(".data ++ joinComma ([r0].map ringTok) ++ [')'] = _
    rw [show "POLYGON(".data = kwPOLYGON ++ ['('] from rfl,
      show joinComma ([r0].map ringTok) = '(' :: joinPairs r0 ++ [')'] from rfl]
    simp
  rw [hser, wktToGeoJSONExtended_eq]
  have htrim : jsTrim (kwPOLYGON ++ '(' :: (('(' :: joinPairs r0) ++ ')' :: (')' :: []))) =
      kwPOLYGON ++ '(' :: (('(' :: joinPairs r0) ++ ')' :: (')' :: [])) := by
    refine jsTrim_head_rparen 'P' rfl (by decide) ?_
    rw [show kwPOLYGON ++ '(' :: (('(' :: joinPairs r0) ++ ')' :: (')' :: [])) =
      (kwPOLYGON ++ '(' :: (('(' :: joinPairs r0) ++ [')'])) ++ [')'] from by simp]
    exact getLast?_concat_rparen _
  rw [htrim, tryPoint_none_PG, tryLineString_none_PG, tryPolygon_shape hne h]
  rfl

/-!
## Swapping preserves well-formedness and is involutive
-/

theorem pairOK_swap {p : JsNum × JsNum} (h : PairOK p) : PairOK (swapPair p) :=
  ⟨h.2, h.1⟩

theorem simpleWF_swap {g : Geometry} (h : SimpleWF g) : SimpleWF (swapSimple g) := by
  cases g with
  | point p => exact ⟨h.2, h.1⟩
  | lineString cs =>
    refine ⟨by simpa using h.1, ?_⟩
    intro p hp
    obtain ⟨q, hq, rfl⟩ := List.mem_map.mp hp
    exact pairOK_swap (h.2 q hq)
  | polygon rs =>
    obtain ⟨r, rfl, hrne, hr⟩ := h
    refine ⟨r.map swapPair, rfl, by simpa using hrne, ?_⟩
    intro p hp
    obtain ⟨q, hq, rfl⟩ := List.mem_map.mp hp
    exact pairOK_swap (hr q hq)
  | multiPoint cs => exact h.elim
  | multiLineString ls => exact h.elim
  | multiPolygon ps => exact h.elim
  | geometryCollection gs => exact h.elim

theorem map_swapPair_invol (cs : List (JsNum × JsNum)) :
    (cs.map swapPair).map swapPair = cs := by
  rw [List.map_map, show swapPair ∘ swapPair = id from funext fun p => rfl, List.map_id]

theorem swapSimple_invol {g : Geometry} (h : SimpleWF g) : swapSimple (swapSimple g) = g := by
  cases g with
  | point p => rfl
  | lineString cs => show Geometry.lineString _ = _; rw [map_swapPair_invol]
  | polygon rs =>
    obtain ⟨r, rfl, -, -⟩ := h
    show Geometry.polygon _ = _
    rw [show ([r].map fun r => r.map swapPair).map (fun r => r.map swapPair) =
      [(r.map swapPair).map swapPair] from rfl, map_swapPair_invol]
  | multiPoint cs => exact h.elim
  | multiLineString ls => exact h.elim
  | multiPolygon ps => exact h.elim
  | geometryCollection gs => exact h.elim

theorem roundtrip_swap_main {g : Geometry} (h : SimpleWF g) :
    wktToGeoJSONExtended (geoJSONToWKTExtended g) = .ok (swapSimple g) := by
  cases g with
  | point p =>
    obtain ⟨a, b, rfl, ha, hb⟩ := pairOK_shape h
    exact roundtrip_point ha hb
  | lineString cs => exact roundtrip_lineString h.1 h.2
  | polygon rs =>
    obtain ⟨r, rfl, hrne, hr⟩ := h
    exact roundtrip_polygon hrne hr
  | multiPoint cs => exact h.elim
  | multiLineString ls => exact h.elim
  | multiPolygon ps => exact h.elim
  | geometryCollection gs => exact h.elim

/-!
## Keyword exclusivity and the error characterisation
-/

theorem kwMatchCI_get {kw s r : List Char} (h : kwMatchCI kw s = some r) :
    ∀ i (hi : i < kw.length), ∃ hj : i < s.length,
      (s.get ⟨i, hj⟩).toLower = (kw.get ⟨i, hi⟩).toLower := by
  induction kw generalizing s with
  | nil => intro i hi; simp at hi
  | cons k ks ih =>
    intro i hi
    cases s with
    | nil => simp [kwMatchCI] at h
    | cons c cs =>
      rw [kwMatchCI_cons] at h
      by_cases hc : c.toLower = k.toLower
      · rw [if_pos hc] at h
        cases i with
        | zero => exact ⟨by simp, hc⟩
        | succ i =>
          obtain ⟨hj, he⟩ := ih h i (Nat.lt_of_succ_lt_succ hi)
          exact ⟨Nat.succ_lt_succ hj, he⟩
      · rw [if_neg hc] at h
        exact absurd h (by simp)

theorem kwMatchCI_of_prefixMatch {kw t : List Char} (h : prefixMatch kw t = true) :
    ∃ r, kwMatchCI kw t = some r := by
  unfold prefixMatch at h
  cases hk : kwMatchCI kw t with
  | none => rw [hk] at h; simp at h
  | some r => exact ⟨r, rfl⟩

/-- Two keywords whose lowercased characters differ at some index cannot
both anchor at the same input: the branch guards are mutually exclusive. -/
theorem prefixMatch_excl {kw1 kw2 t : List Char} (j : Nat)
    (hj1 : j < kw1.length) (hj2 : j < kw2.length)
    (hne : (kw1.get ⟨j, hj1⟩).toLower ≠ (kw2.get ⟨j, hj2⟩).toLower)
    (h1 : prefixMatch kw1 t = true) : prefixMatch kw2 t = false := by
  cases h2 : prefixMatch kw2 t with
  | false => rfl
  | true =>
    obtain ⟨r1, e1⟩ := kwMatchCI_of_prefixMatch h1
    obtain ⟨r2, e2⟩ := kwMatchCI_of_prefixMatch h2
    obtain ⟨ha1, q1⟩ := kwMatchCI_get e1 j hj1
    obtain ⟨ha2, q2⟩ := kwMatchCI_get e2 j hj2
    exact absurd (q1.symm.trans q2) hne

theorem prefix_false_imp {kw1 kw2 t : List Char} (j : Nat) (hj1 : j < kw1.length)
    (hj2 : j < kw2.length)
    (hne : (kw1.get ⟨j, hj1⟩).toLower ≠ (kw2.get ⟨j, hj2⟩).toLower)
    (h1 : prefixMatch kw1 t = true) {P : Prop} : prefixMatch kw2 t = true → P :=
  fun hq => absurd hq (by simp [prefixMatch_excl j hj1 hj2 hne h1])

theorem tryPolygon_none {t : List Char} (h : prefixMatch kwPOLYGON t = false) :
    tryPolygon t = none := by
  unfold tryPolygon
  rw [if_neg (by simp [h])]

theorem tryMultiPoint_none {t : List Char} (h : prefixMatch kwMULTIPOINT t = false) :
    tryMultiPoint t = none := by
  unfold tryMultiPoint
  rw [if_neg (by simp [h])]

theorem tryMultiLineString_none {t : List Char}
    (h : prefixMatch kwMULTILINESTRING t = false) : tryMultiLineString t = none := by
  unfold tryMultiLineString
  rw [if_neg (by simp [h])]

theorem tryMultiPolygon_none {t : List Char} (h : prefixMatch kwMULTIPOLYGON t = false) :
    tryMultiPolygon t = none := by
  unfold tryMultiPolygon
  rw [if_neg (by simp [h])]

theorem tryGC_none {recur : List Char → Except (List Char) Geometry} {t : List Char}
    (h : prefixMatch kwGEOMETRYCOLLECTION t = false) : tryGC recur t = none := by
  unfold tryGC
  rw [if_neg (by simp [h])]

theorem if_map_eq_none_iff {α β : Type} {b : Bool} {o : Option α} {f : α → β} :
    (if b = true then o.map f else none) = none ↔ (b = true → o = none) := by
  cases b
  · simp
  · cases o <;> simp

theorem tryPoint_eq_none_iff {t : List Char} :
    tryPoint t = none ↔ (prefixMatch kwPOINT t = true → extractPoint t = none) :=
  if_map_eq_none_iff

theorem tryLineString_eq_none_iff {t : List Char} :
    tryLineString t = none ↔
      (prefixMatch kwLINESTRING t = true → extractBody kwLINESTRING t = none) :=
  if_map_eq_none_iff

theorem tryPolygon_eq_none_iff {t : List Char} :
    tryPolygon t = none ↔
      (prefixMatch kwPOLYGON t = true → extractBody kwPOLYGON t = none) :=
  if_map_eq_none_iff

theorem tryMultiPoint_eq_none_iff {t : List Char} :
    tryMultiPoint t = none ↔
      (prefixMatch kwMULTIPOINT t = true → extractBody kwMULTIPOINT t = none) :=
  if_map_eq_none_iff

theorem tryMultiLineString_eq_none_iff {t : List Char} :
    tryMultiLineString t = none ↔
      (prefixMatch kwMULTILINESTRING t = true → extractBody kwMULTILINESTRING t = none) :=
  if_map_eq_none_iff

theorem tryMultiPolygon_eq_none_iff {t : List Char} :
    tryMultiPolygon t = none ↔
      (prefixMatch kwMULTIPOLYGON t = true → extractBody kwMULTIPOLYGON t = none) :=
  if_map_eq_none_iff

theorem tryGC_eq_none_iff {recur : List Char → Except (List Char) Geometry}
    {t : List Char} :
    tryGC recur t = none ↔
      (prefixMatch kwGEOMETRYCOLLECTION t = true →
        extractBody kwGEOMETRYCOLLECTION t = none) :=
  if_map_eq_none_iff

theorem orElse7_eq_none {o1 o2 o3 o4 o5 o6 o7 : Option Geometry} :
    (o1 <|> o2 <|> o3 <|> o4 <|> o5 <|> o6 <|> o7) = none ↔
      o1 = none ∧ o2 = none ∧ o3 = none ∧ o4 = none ∧ o5 = none ∧ o6 = none ∧
        o7 = none := by
  cases o1 <;> cases o2 <;> cases o3 <;> cases o4 <;> cases o5 <;> cases o6 <;>
    cases o7 <;> simp

theorem match_error_iff {o : Option Geometry} :
    (match o with
      | some g => (Except.ok g : Except (List Char) Geometry)
      | none => Except.error invalidWktMsg) = Except.error invalidWktMsg ↔ o = none := by
  cases o <;> simp

/-- The converter errors exactly when every branch's guard-plus-extraction
fails; the error text is always the wrapped invalid-format message. -/
theorem wkt_error_iff_all (s : List Char) :
    wktToGeoJSONExtended s = .error invalidWktMsg ↔
      ((prefixMatch kwPOINT (jsTrim s) = true → extractPoint (jsTrim s) = none) ∧
       (prefixMatch kwLINESTRING (jsTrim s) = true →
         extractBody kwLINESTRING (jsTrim s) = none) ∧
       (prefixMatch kwPOLYGON (jsTrim s) = true →
         extractBody kwPOLYGON (jsTrim s) = none) ∧
       (prefixMatch kwMULTIPOINT (jsTrim s) = true →
         extractBody kwMULTIPOINT (jsTrim s) = none) ∧
       (prefixMatch kwMULTILINESTRING (jsTrim s) = true →
         extractBody kwMULTILINESTRING (jsTrim s) = none) ∧
       (prefixMatch kwMULTIPOLYGON (jsTrim s) = true →
         extractBody kwMULTIPOLYGON (jsTrim s) = none) ∧
       (prefixMatch kwGEOMETRYCOLLECTION (jsTrim s) = true →
         extractBody kwGEOMETRYCOLLECTION (jsTrim s) = none)) := by
  rw [wktToGeoJSONExtended_eq, match_error_iff, orElse7_eq_none]
  exact and_congr tryPoint_eq_none_iff (and_congr tryLineString_eq_none_iff
    (and_congr tryPolygon_eq_none_iff (and_congr tryMultiPoint_eq_none_iff
      (and_congr tryMultiLineString_eq_none_iff
        (and_congr tryMultiPolygon_eq_none_iff tryGC_eq_none_iff)))))

theorem wkt_error_msg {s e : List Char} (h : wktToGeoJSONExtended s = .error e) :
    e = invalidWktMsg := by
  rw [wktToGeoJSONExtended_eq] at h
  cases hchain : (tryPoint (jsTrim s) <|> tryLineString (jsTrim s) <|>
      tryPolygon (jsTrim s) <|> tryMultiPoint (jsTrim s) <|>
      tryMultiLineString (jsTrim s) <|> tryMultiPolygon (jsTrim s) <|>
      tryGC (wktParse s.length) (jsTrim s)) with
  | some g => rw [hchain] at h; simp at h
  | none =>
    rw [hchain] at h
    injection h with h
    exact h.symm

/-!
## Concrete claim theorems and counterexamples

Decimal coordinates are written as `Dec` values: `⟨5252, 2⟩` is `52.52`
(numerically equal to the token `52.5200`), `⟨13405, 3⟩` is `13.405`, and
`⟨1, 0⟩` is `1`.
-/

/-- Claim C3: converting the WKT string `POINT(13.4050 52.5200)` with
`wktToGeoJSONExtended` returns the GeoJSON Point whose coordinates array
holds the second written token first: `[52.5200, 13.4050]`. -/
theorem c3_point_literal :
    wktToGeoJSONExtended "POINT(13.4050 52.5200)".data =
      .ok (.point (some ⟨5252, 2⟩, some ⟨13405, 3⟩)) := rfl

/-- Claim C5: for old text `"a\nb\nc"` and new text `"a\nx\nc"` in line
mode, `computeLineDiff` returns exactly: unchanged `a` (old 1, new 1),
removed `b` (old 2), added `x` (new 2), unchanged `c` (old 3, new 3). -/
theorem c5_line_diff_literal :
    computeLineDiff "a\nb\nc".data "a\nx\nc".data =
      [⟨.unchanged, "a".data, some 1, some 1⟩, ⟨.removed, "b".data, some 2, none⟩,
       ⟨.added, "x".data, none, some 2⟩, ⟨.unchanged, "c".data, some 3, some 3⟩] := rfl

/-- Claim C6: for old text `"a\nb\nc"` and new text `"a\nx\nc"`, the unified
diff consists of exactly one hunk whose header line reads
`@@ -2,1 +2,1 @@` (the whole output is pinned down, so no other hunk
header exists). -/
theorem c6_unified_diff_literal :
    formatUnifiedDiff "a\nb\nc".data "a\nx\nc".data "old".data "new".data =
      ("--- old\n+++ new\n@@ -2,1 +2,1 @@\n-b\n+x\n").data := rfl

/-- Claim C9: when both inputs are the empty string, `computeLineDiff` and
`computeDiff` (in every mode) return the empty record sequence. -/
theorem c9_empty_inputs :
    computeLineDiff "".data "".data = [] ∧
      ∀ mode, computeDiff "".data "".data mode = [] :=
  ⟨rfl, fun mode => by cases mode <;> rfl⟩

/-- Instantiation of `c9_empty_inputs` at line mode. -/
theorem c9_empty_inputs_witness : computeDiff "".data "".data .line = [] :=
  c9_empty_inputs.2 .line

/-- Claim C7 counterexample: parsing `LINESTRING(13.405 52.52, 13.41 52.53)`
back does not return the original coordinate array
`[[13.405, 52.52], [13.41, 52.53]]`; every pair comes back swapped. -/
theorem c7_counterexample :
    wktToGeoJSONExtended "LINESTRING(13.405 52.52, 13.41 52.53)".data =
      .ok (.lineString [(some ⟨5252, 2⟩, some ⟨13405, 3⟩),
        (some ⟨5253, 2⟩, some ⟨1341, 2⟩)]) ∧
      [((some ⟨5252, 2⟩ : JsNum), (some ⟨13405, 3⟩ : JsNum)),
        (some ⟨5253, 2⟩, some ⟨1341, 2⟩)] ≠
        [((some ⟨13405, 3⟩ : JsNum), (some ⟨5252, 2⟩ : JsNum)),
          (some ⟨1341, 2⟩, some ⟨5253, 2⟩)] :=
  ⟨rfl, by decide⟩

/-- Claim C7 amended: serialising the LineString
`[[13.405, 52.52], [13.41, 52.53]]` yields exactly
`LINESTRING(13.405 52.52, 13.41 52.53)`, and parsing that string back yields
the pairwise-swapped coordinate array `[[52.52, 13.405], [52.53, 13.41]]`. -/
theorem c7_linestring_roundtrip :
    geoJSONToWKTExtended (.lineString [(some ⟨13405, 3⟩, some ⟨5252, 2⟩),
        (some ⟨1341, 2⟩, some ⟨5253, 2⟩)]) =
      "LINESTRING(13.405 52.52, 13.41 52.53)".data ∧
      wktToGeoJSONExtended "LINESTRING(13.405 52.52, 13.41 52.53)".data =
        .ok (.lineString [(some ⟨5252, 2⟩, some ⟨13405, 3⟩),
          (some ⟨5253, 2⟩, some ⟨1341, 2⟩)]) :=
  ⟨rfl, rfl⟩

/-- Claim C2 counterexample: in `LINESTRING(1 2, 3 4)` the coordinate
emitted for the token `1 2` is `[2, 1]`, not `[1, 2]`: the parser swaps the
two parsed numbers. -/
theorem c2_counterexample :
    wktToGeoJSONExtended "LINESTRING(1 2, 3 4)".data =
      .ok (.lineString [(some ⟨2, 0⟩, some ⟨1, 0⟩), (some ⟨4, 0⟩, some ⟨3, 0⟩)]) ∧
      ((some ⟨2, 0⟩ : JsNum), (some ⟨1, 0⟩ : JsNum)) ≠
        ((some ⟨1, 0⟩ : JsNum), (some ⟨2, 0⟩ : JsNum)) :=
  ⟨rfl, by decide⟩

/-- Claim C1 counterexample: the round trip through
`geoJSONToWKTExtended` and `wktToGeoJSONExtended` maps the Point `[1, 2]`
to `[2, 1]`, not back to itself. -/
theorem c1_counterexample :
    wktToGeoJSONExtended (geoJSONToWKTExtended (.point (some ⟨1, 0⟩, some ⟨2, 0⟩))) =
      .ok (.point (some ⟨2, 0⟩, some ⟨1, 0⟩)) ∧
      ((some ⟨2, 0⟩ : JsNum), (some ⟨1, 0⟩ : JsNum)) ≠
        ((some ⟨1, 0⟩ : JsNum), (some ⟨2, 0⟩ : JsNum)) :=
  ⟨rfl, by decide⟩

/-- Claim C1 amended: for Point, nonempty-LineString and single-ring-Polygon
geometries whose coordinates are well-formed finite decimals, the round trip
`wktToGeoJSONExtended ∘ geoJSONToWKTExtended` returns the original geometry
with the two numbers of every coordinate pair swapped (the parser swaps its
captured groups while the serialiser does not); consequently the round trip
applied twice restores the original geometry.  For multi-part types even
this weakened round trip fails, since the lazy body extraction `(.*?)\)`
truncates the serialised text at the first closing parenthesis. -/
theorem c1_roundtrip_swap (g : Geometry) (h : SimpleWF g) :
    wktToGeoJSONExtended (geoJSONToWKTExtended g) = .ok (swapSimple g) ∧
      wktToGeoJSONExtended (geoJSONToWKTExtended (swapSimple g)) = .ok g := by
  refine ⟨roundtrip_swap_main h, ?_⟩
  rw [roundtrip_swap_main (simpleWF_swap h), swapSimple_invol h]

/-- Instantiation of `c1_roundtrip_swap` at the Point `[1, 2]`. -/
theorem c1_roundtrip_swap_witness :
    wktToGeoJSONExtended (geoJSONToWKTExtended (.point (some ⟨1, 0⟩, some ⟨2, 0⟩))) =
      .ok (swapSimple (.point (some ⟨1, 0⟩, some ⟨2, 0⟩))) ∧
      wktToGeoJSONExtended (geoJSONToWKTExtended
        (swapSimple (.point (some ⟨1, 0⟩, some ⟨2, 0⟩)))) =
        .ok (.point (some ⟨1, 0⟩, some ⟨2, 0⟩)) :=
  c1_roundtrip_swap (.point (some ⟨1, 0⟩, some ⟨2, 0⟩)) ⟨rfl, rfl⟩

/-- Claim C2 amended: for every coordinate token written `x y`, the per-token
mapper of the WKT-to-GeoJSON conversion emits the pair `[y, x]` — the two
parsed numbers are swapped, not kept in written order. -/
theorem c2_token_swap (tx ty : List Char) (hx : tx ≠ []) (hy : ty ≠ [])
    (hxc : ∀ c ∈ tx, isNumTokChar c = true) (hyc : ∀ c ∈ ty, isNumTokChar c = true) :
    parseCoordPair (tx ++ ' ' :: ty) = (parseFloatD ty, parseFloatD tx) :=
  parseCoordPair_token_swap hx hy hxc hyc

/-- Instantiation of `c2_token_swap` at the token `1 2`. -/
theorem c2_token_swap_witness :
    parseCoordPair (['1'] ++ ' ' :: ['2']) = (parseFloatD ['2'], parseFloatD ['1']) :=
  c2_token_swap ['1'] ['2'] (by decide) (by decide) (by decide) (by decide)

/-- Claim C4 counterexample: `GEOMETRYCOLLECTION(POINT(1 2))` is recognised
by the collection prefix and its single member `POINT(1 2)` is well formed
(it parses on its own), yet the returned collection is empty — the lazy
body extraction truncates the inner text at the first `)`, so the member is
lost rather than included. -/
theorem c4_counterexample :
    wktToGeoJSONExtended "GEOMETRYCOLLECTION(POINT(1 2))".data =
      .ok (.geometryCollection []) ∧
      wktToGeoJSONExtended "POINT(1 2)".data =
        .ok (.point (some ⟨2, 0⟩, some ⟨1, 0⟩)) ∧
      ([] : List Geometry) ≠ [.point (some ⟨2, 0⟩, some ⟨1, 0⟩)] :=
  ⟨rfl, rfl, by simp⟩

/-- Claim C4 amended: whenever the collection extraction succeeds (a `)`
follows the opening parenthesis with no line terminator between),
`wktToGeoJSONExtended` returns a GeometryCollection without throwing,
members that fail to parse being silently skipped in textual order; but the
inner text is extracted lazily up to the first `)`, so members containing
parentheses are truncated and dropped — `GEOMETRYCOLLECTION(POINT(1 2),
POINT(3 4))` yields an empty collection — and a prefix-recognised input
with no closing parenthesis throws. -/
theorem c4_collection_best_effort :
    (∀ s : List Char, prefixMatch kwGEOMETRYCOLLECTION (jsTrim s) = true →
      (extractBody kwGEOMETRYCOLLECTION (jsTrim s)).isSome = true →
      ∃ gs, wktToGeoJSONExtended s = .ok (.geometryCollection gs)) ∧
      wktToGeoJSONExtended "GEOMETRYCOLLECTION(POINT(1 2), POINT(3 4))".data =
        .ok (.geometryCollection []) := by
  constructor
  · intro s hp he
    obtain ⟨inner, hi⟩ := Option.isSome_iff_exists.mp he
    refine ⟨gcWalk (wktParse s.length) inner, ?_⟩
    rw [wktToGeoJSONExtended_eq,
      tryPoint_none (prefixMatch_excl 0 (by decide) (by decide) (by decide) hp),
      tryLineString_none (prefixMatch_excl 0 (by decide) (by decide) (by decide) hp),
      tryPolygon_none (prefixMatch_excl 0 (by decide) (by decide) (by decide) hp),
      tryMultiPoint_none (prefixMatch_excl 0 (by decide) (by decide) (by decide) hp),
      tryMultiLineString_none (prefixMatch_excl 0 (by decide) (by decide) (by decide) hp),
      tryMultiPolygon_none (prefixMatch_excl 0 (by decide) (by decide) (by decide) hp)]
    unfold tryGC
    rw [if_pos hp, hi]
    rfl
  · rfl

/-- Application of `c4_collection_best_effort` to the empty collection. -/
theorem c4_collection_best_effort_witness :
    ∃ gs, wktToGeoJSONExtended "GEOMETRYCOLLECTION()".data =
      .ok (.geometryCollection gs) :=
  c4_collection_best_effort.1 "GEOMETRYCOLLECTION()".data rfl rfl

/-- Claim C8: `wktToGeoJSONExtended` throws an error whose message begins
`Invalid WKT format` exactly when the input matches no supported
geometry-type anchor, or an anchor matches but that branch's extraction
regular expression finds no match; in particular the unbalanced input
`POLYGON(1 2, 3 4` fails with that error and produces no geometry. -/
theorem c8_error_iff :
    (∀ s : List Char,
      (∃ e, wktToGeoJSONExtended s = .error e ∧
        e.take 18 = "Invalid WKT format".data) ↔
        (¬recognizedType (jsTrim s) ∨ recognizedNoExtract (jsTrim s))) ∧
      wktToGeoJSONExtended "POLYGON(1 2, 3 4".data = .error invalidWktMsg := by
  constructor
  · intro s
    have hmsg : (∃ e, wktToGeoJSONExtended s = .error e ∧
        e.take 18 = "Invalid WKT format".data) ↔
        wktToGeoJSONExtended s = .error invalidWktMsg := by
      constructor
      · rintro ⟨e, he, -⟩
        rw [← wkt_error_msg he]
        exact he
      · intro h
        exact ⟨invalidWktMsg, h, by decide⟩
    rw [hmsg, wkt_error_iff_all]
    unfold recognizedType recognizedNoExtract
    constructor
    · rintro ⟨h1, h2, h3, h4, h5, h6, h7⟩
      by_cases hrt : prefixMatch kwPOINT (jsTrim s) = true ∨
          prefixMatch kwLINESTRING (jsTrim s) = true ∨
          prefixMatch kwPOLYGON (jsTrim s) = true ∨
          prefixMatch kwMULTIPOINT (jsTrim s) = true ∨
          prefixMatch kwMULTILINESTRING (jsTrim s) = true ∨
          prefixMatch kwMULTIPOLYGON (jsTrim s) = true ∨
          prefixMatch kwGEOMETRYCOLLECTION (jsTrim s) = true
      · right
        rcases hrt with hp | hp | hp | hp | hp | hp | hp
        · exact Or.inl ⟨hp, h1 hp⟩
        · exact Or.inr (Or.inl ⟨hp, h2 hp⟩)
        · exact Or.inr (Or.inr (Or.inl ⟨hp, h3 hp⟩))
        · exact Or.inr (Or.inr (Or.inr (Or.inl ⟨hp, h4 hp⟩)))
        · exact Or.inr (Or.inr (Or.inr (Or.inr (Or.inl ⟨hp, h5 hp⟩))))
        · exact Or.inr (Or.inr (Or.inr (Or.inr (Or.inr (Or.inl ⟨hp, h6 hp⟩)))))
        · exact Or.inr (Or.inr (Or.inr (Or.inr (Or.inr (Or.inr ⟨hp, h7 hp⟩)))))
      · left; exact hrt
    · rintro (hno | hre)
      · push_neg at hno
        obtain ⟨n1, n2, n3, n4, n5, n6, n7⟩ := hno
        exact ⟨fun hp => absurd hp n1, fun hp => absurd hp n2, fun hp => absurd hp n3,
          fun hp => absurd hp n4, fun hp => absurd hp n5, fun hp => absurd hp n6,
          fun hp => absurd hp n7⟩
      · rcases hre with ⟨hp, hx⟩ | ⟨hp, hx⟩ | ⟨hp, hx⟩ | ⟨hp, hx⟩ | ⟨hp, hx⟩ |
          ⟨hp, hx⟩ | ⟨hp, hx⟩
        · exact ⟨fun _ => hx,
            prefix_false_imp 0 (by decide) (by decide) (by decide) hp,
            prefix_false_imp 2 (by decide) (by decide) (by decide) hp,
            prefix_false_imp 0 (by decide) (by decide) (by decide) hp,
            prefix_false_imp 0 (by decide) (by decide) (by decide) hp,
            prefix_false_imp 0 (by decide) (by decide) (by decide) hp,
            prefix_false_imp 0 (by decide) (by decide) (by decide) hp⟩
        · exact ⟨prefix_false_imp 0 (by decide) (by decide) (by decide) hp,
            fun _ => hx,
            prefix_false_imp 0 (by decide) (by decide) (by decide) hp,
            prefix_false_imp 0 (by decide) (by decide) (by decide) hp,
            prefix_false_imp 0 (by decide) (by decide) (by decide) hp,
            prefix_false_imp 0 (by decide) (by decide) (by decide) hp,
            prefix_false_imp 0 (by decide) (by decide) (by decide) hp⟩
        · exact ⟨prefix_false_imp 2 (by decide) (by decide) (by decide) hp,
            prefix_false_imp 0 (by decide) (by decide) (by decide) hp,
            fun _ => hx,
            prefix_false_imp 0 (by decide) (by decide) (by decide) hp,
            prefix_false_imp 0 (by decide) (by decide) (by decide) hp,
            prefix_false_imp 0 (by decide) (by decide) (by decide) hp,
            prefix_false_imp 0 (by decide) (by decide) (by decide) hp⟩
        · exact ⟨prefix_false_imp 0 (by decide) (by decide) (by decide) hp,
            prefix_false_imp 0 (by decide) (by decide) (by decide) hp,
            prefix_false_imp 0 (by decide) (by decide) (by decide) hp,
            fun _ => hx,
            prefix_false_imp 5 (by decide) (by decide) (by decide) hp,
            prefix_false_imp 7 (by decide) (by decide) (by decide) hp,
            prefix_false_imp 0 (by decide) (by decide) (by decide) hp⟩
        · exact ⟨prefix_false_imp 0 (by decide) (by decide) (by decide) hp,
            prefix_false_imp 0 (by decide) (by decide) (by decide) hp,
            prefix_false_imp 0 (by decide) (by decide) (by decide) hp,
            prefix_false_imp 5 (by decide) (by decide) (by decide) hp,
            fun _ => hx,
            prefix_false_imp 5 (by decide) (by decide) (by decide) hp,
            prefix_false_imp 0 (by decide) (by decide) (by decide) hp⟩
        · exact ⟨prefix_false_imp 0 (by decide) (by decide) (by decide) hp,
            prefix_false_imp 0 (by decide) (by decide) (by decide) hp,
            prefix_false_imp 0 (by decide) (by decide) (by decide) hp,
            prefix_false_imp 7 (by decide) (by decide) (by decide) hp,
            prefix_false_imp 5 (by decide) (by decide) (by decide) hp,
            fun _ => hx,
            prefix_false_imp 0 (by decide) (by decide) (by decide) hp⟩
        · exact ⟨prefix_false_imp 0 (by decide) (by decide) (by decide) hp,
            prefix_false_imp 0 (by decide) (by decide) (by decide) hp,
            prefix_false_imp 0 (by decide) (by decide) (by decide) hp,
            prefix_false_imp 0 (by decide) (by decide) (by decide) hp,
            prefix_false_imp 0 (by decide) (by decide) (by decide) hp,
            prefix_false_imp 0 (by decide) (by decide) (by decide) hp,
            fun _ => hx⟩
  · rfl

/-- Application of `c8_error_iff` at the truncated input `POINT(1 2`: the
POINT anchor matches but its extraction fails, so the conversion errors. -/
theorem c8_error_iff_witness :
    ∃ e, wktToGeoJSONExtended "POINT(1 2".data = .error e ∧
      e.take 18 = "Invalid WKT format".data :=
  (c8_error_iff.1 "POINT(1 2".data).mpr (Or.inr (Or.inl ⟨rfl, rfl⟩))

/-!
## Line-numbering invariant of computeLineDiff
-/

theorem cldOne_cases (op : Int) (l : List Char) (o n : Nat) :
    (op = 1 ∧ cldOne op l o n = (⟨DiffOp.added, l, none, some n⟩, o, n + 1)) ∨
    (op ≠ 1 ∧ op = -1 ∧ cldOne op l o n = (⟨DiffOp.removed, l, some o, none⟩, o + 1, n)) ∨
    (op ≠ 1 ∧ op ≠ -1 ∧
      cldOne op l o n = (⟨DiffOp.unchanged, l, some o, some n⟩, o + 1, n + 1)) := by
  unfold cldOne
  by_cases h1 : op = 1
  · left; exact ⟨h1, by rw [if_pos h1]⟩
  · by_cases h2 : op = -1
    · right; left; exact ⟨h1, h2, by rw [if_neg h1, if_pos h2]⟩
    · right; right; exact ⟨h1, h2, by rw [if_neg h1, if_neg h2]⟩

theorem cldLines_cons2 (op : Int) (l l2 : List Char) (ls : List (List Char)) (o n : Nat) :
    cldLines op (l :: l2 :: ls) o n =
      ((cldOne op l o n).1 ::
          (cldLines op (l2 :: ls) (cldOne op l o n).2.1 (cldOne op l o n).2.2).1,
        (cldLines op (l2 :: ls) (cldOne op l o n).2.1 (cldOne op l o n).2.2).2) := rfl

theorem cldLines_spec (op : Int) :
    ∀ (ls : List (List Char)) (o n : Nat),
      (cldLines op ls o n).1.filterMap DiffLine.oldLineNumber =
          List.range' o
            ((cldLines op ls o n).1.countP (fun r => r.type != DiffOp.added)) ∧
      (cldLines op ls o n).2.1 =
          o + (cldLines op ls o n).1.countP (fun r => r.type != DiffOp.added) ∧
      (cldLines op ls o n).1.filterMap DiffLine.newLineNumber =
          List.range' n
            ((cldLines op ls o n).1.countP (fun r => r.type != DiffOp.removed)) ∧
      (cldLines op ls o n).2.2 =
          n + (cldLines op ls o n).1.countP (fun r => r.type != DiffOp.removed) ∧
      ∀ r ∈ (cldLines op ls o n).1,
        (r.type = DiffOp.added → r.oldLineNumber = none) ∧
        (r.type = DiffOp.removed → r.newLineNumber = none) := by
  intro ls
  induction ls with
  | nil => intro o n; simp [cldLines]
  | cons l ls' ih =>
    intro o n
    cases ls' with
    | nil =>
      by_cases hl : l = []
      · simp [cldLines, hl]
      · rcases cldOne_cases op l o n with ⟨-, he⟩ | ⟨-, -, he⟩ | ⟨-, -, he⟩ <;>
          simp [cldLines, hl, he, List.range'_one]
    | cons l2 ls'' =>
      rw [cldLines_cons2]
      rcases cldOne_cases op l o n with ⟨-, he⟩ | ⟨-, -, he⟩ | ⟨-, -, he⟩ <;>
        rw [he] <;>
        obtain ⟨i1, i2, i3, i4, i5⟩ := ih _ _
      · refine ⟨by simpa using i1, by simpa using i2, ?_, ?_, ?_⟩
        · simp only [List.filterMap_cons, List.countP_cons]
          rw [i3]
          simp [List.range'_succ]
        · simpa [Nat.add_comm, Nat.add_assoc, Nat.add_left_comm] using i4
        · intro r hr
          rcases List.mem_cons.mp hr with h | h
          · subst h; exact ⟨fun _ => rfl, by intro h2; cases h2⟩
          · exact i5 r h
      · refine ⟨?_, ?_, by simpa using i3, by simpa using i4, ?_⟩
        · simp only [List.filterMap_cons, List.countP_cons]
          rw [i1]
          simp [List.range'_succ]
        · simpa [Nat.add_comm, Nat.add_assoc, Nat.add_left_comm] using i2
        · intro r hr
          rcases List.mem_cons.mp hr with h | h
          · subst h; exact ⟨(by intro h2; cases h2), fun _ => rfl⟩
          · exact i5 r h
      · refine ⟨?_, ?_, ?_, ?_, ?_⟩
        · simp only [List.filterMap_cons, List.countP_cons]
          rw [i1]
          simp [List.range'_succ]
        · simpa [Nat.add_comm, Nat.add_assoc, Nat.add_left_comm] using i2
        · simp only [List.filterMap_cons, List.countP_cons]
          rw [i3]
          simp [List.range'_succ]
        · simpa [Nat.add_comm, Nat.add_assoc, Nat.add_left_comm] using i4
        · intro r hr
          rcases List.mem_cons.mp hr with h | h
          · subst h; exact ⟨(by intro h2; cases h2), (by intro h2; cases h2)⟩
          · exact i5 r h

theorem cldGo_spec :
    ∀ (ds : List (Int × List Char)) (o n : Nat),
      (cldGo ds o n).filterMap DiffLine.oldLineNumber =
          List.range' o ((cldGo ds o n).countP (fun r => r.type != DiffOp.added)) ∧
      (cldGo ds o n).filterMap DiffLine.newLineNumber =
          List.range' n ((cldGo ds o n).countP (fun r => r.type != DiffOp.removed)) ∧
      ∀ r ∈ cldGo ds o n,
        (r.type = DiffOp.added → r.oldLineNumber = none) ∧
        (r.type = DiffOp.removed → r.newLineNumber = none) := by
  intro ds
  induction ds with
  | nil => intro o n; simp [cldGo]
  | cons d ds ih =>
    obtain ⟨op, text⟩ := d
    intro o n
    have hgo : cldGo ((op, text) :: ds) o n =
        (cldLines op (splitOnChar '\n' text) o n).1 ++
          cldGo ds (cldLines op (splitOnChar '\n' text) o n).2.1
            (cldLines op (splitOnChar '\n' text) o n).2.2 := rfl
    obtain ⟨l1, l2, l3, l4, l5⟩ := cldLines_spec op (splitOnChar '\n' text) o n
    obtain ⟨g1, g2, g3⟩ := ih (cldLines op (splitOnChar '\n' text) o n).2.1
      (cldLines op (splitOnChar '\n' text) o n).2.2
    refine ⟨?_, ?_, ?_⟩
    · rw [hgo, List.filterMap_append, List.countP_append, l1, g1, l2,
        List.range'_append_1]
      exact congrArg (List.range' o) (Nat.add_comm _ _)
    · rw [hgo, List.filterMap_append, List.countP_append, l3, g2, l4,
        List.range'_append_1]
      exact congrArg (List.range' n) (Nat.add_comm _ _)
    · rw [hgo]
      intro r hr
      rcases List.mem_append.mp hr with h | h
      · exact l5 r h
      · exact g3 r h

/-- Claim C10: in the record sequence of `computeLineDiff`, the
`oldLineNumber` fields of the removed and unchanged records form exactly
`1, 2, 3, …` in output order, as do the `newLineNumber` fields of the added
and unchanged records; added records carry no `oldLineNumber` and removed
records carry no `newLineNumber`. -/
theorem c10_line_numbering (oldText newText : List Char) :
    (computeLineDiff oldText newText).filterMap DiffLine.oldLineNumber =
        List.range' 1 ((computeLineDiff oldText newText).countP
          (fun r => r.type != DiffOp.added)) ∧
      (computeLineDiff oldText newText).filterMap DiffLine.newLineNumber =
        List.range' 1 ((computeLineDiff oldText newText).countP
          (fun r => r.type != DiffOp.removed)) ∧
      ∀ r ∈ computeLineDiff oldText newText,
        (r.type = DiffOp.added → r.oldLineNumber = none) ∧
        (r.type = DiffOp.removed → r.newLineNumber = none) :=
  cldGo_spec (diffLineMode oldText newText) 1 1

/-- Instantiation of `c10_line_numbering` at a concrete pair of texts. -/
theorem c10_line_numbering_witness :
    (computeLineDiff "a\nb\nc".data "a\nx\nc".data).filterMap DiffLine.oldLineNumber =
      List.range' 1 ((computeLineDiff "a\nb\nc".data "a\nx\nc".data).countP
        (fun r => r.type != DiffOp.added)) :=
  (c10_line_numbering "a\nb\nc".data "a\nx\nc".data).1

end Devimuth
